import Mathlib

/-
  Verification of the pbxproj library (Go): ordered mapping (pegparser/slicemap.go),
  value tree and parser semantics (pegparser/pbxproj.peg), project mutator
  (pbxproj/pbxProject.go, pbxproj/pbxFile part), and canonical serializer
  (pbxproj/pbxWriter.go), shallowly embedded in Lean.

  Go `interface{}` values that flow through the tree are modelled by the
  inductive `PValue`; Go type assertions (`v.(string)`, `v.(Object)`, ...)
  are modelled either by total projections used only where the assertion
  cannot fail on the states considered, or by `Except String` failures where
  a panic is a behaviour under study.
-/

/-- The values the parser and mutator store in the tree: Go strings,
64-bit integers (the grammar's IntegerValue parses with bitSize 32),
decimal literals (DecimalValue; it carries its source text because no claim
computes with it), []interface{} sequences, and ordered-mapping Objects
(backed by pegparser.SliceMap; the list keeps insertion order). -/
inductive PValue where
  | s : String → PValue
  | i : Int → PValue
  | dec : String → PValue
  | arr : List PValue → PValue
  | obj : List (String × PValue) → PValue

mutual

/-- Boolean equality on values (the nested lists prevent deriving). -/
def PValue.beq : PValue → PValue → Bool
  | .s a, .s b => a == b
  | .i a, .i b => a == b
  | .dec a, .dec b => a == b
  | .arr a, .arr b => PValue.beqList a b
  | .obj a, .obj b => PValue.beqKVList a b
  | _, _ => false

/-- Boolean equality on value lists. -/
def PValue.beqList : List PValue → List PValue → Bool
  | [], [] => true
  | x :: xs, y :: ys => PValue.beq x y && PValue.beqList xs ys
  | _, _ => false

/-- Boolean equality on (key, value) lists. -/
def PValue.beqKVList : List (String × PValue) → List (String × PValue) → Bool
  | [], [] => true
  | (k1, v1) :: xs, (k2, v2) :: ys => k1 == k2 && PValue.beq v1 v2 && PValue.beqKVList xs ys
  | _, _ => false

end

mutual

theorem PValue.beq_refl : ∀ a : PValue, PValue.beq a a = true
  | .s a => by simp [PValue.beq]
  | .i a => by simp [PValue.beq]
  | .dec a => by simp [PValue.beq]
  | .arr l => by simp [PValue.beq, PValue.beqList_refl l]
  | .obj l => by simp [PValue.beq, PValue.beqKVList_refl l]

theorem PValue.beqList_refl : ∀ l : List PValue, PValue.beqList l l = true
  | [] => rfl
  | x :: xs => by simp [PValue.beqList, PValue.beq_refl x, PValue.beqList_refl xs]

theorem PValue.beqKVList_refl : ∀ l : List (String × PValue), PValue.beqKVList l l = true
  | [] => rfl
  | (k, v) :: xs => by
      simp [PValue.beqKVList, PValue.beq_refl v, PValue.beqKVList_refl xs]

end

mutual

theorem PValue.eq_of_beq : ∀ a b : PValue, PValue.beq a b = true → a = b
  | .s a, .s b => by simp [PValue.beq]
  | .i a, .i b => by simp [PValue.beq]
  | .dec a, .dec b => by simp [PValue.beq]
  | .arr a, .arr b => by
      intro h
      exact congrArg PValue.arr (PValue.eqList_of_beq a b h)
  | .obj a, .obj b => by
      intro h
      exact congrArg PValue.obj (PValue.eqKVList_of_beq a b h)
  | .s _, .i _ => by simp [PValue.beq]
  | .s _, .dec _ => by simp [PValue.beq]
  | .s _, .arr _ => by simp [PValue.beq]
  | .s _, .obj _ => by simp [PValue.beq]
  | .i _, .s _ => by simp [PValue.beq]
  | .i _, .dec _ => by simp [PValue.beq]
  | .i _, .arr _ => by simp [PValue.beq]
  | .i _, .obj _ => by simp [PValue.beq]
  | .dec _, .s _ => by simp [PValue.beq]
  | .dec _, .i _ => by simp [PValue.beq]
  | .dec _, .arr _ => by simp [PValue.beq]
  | .dec _, .obj _ => by simp [PValue.beq]
  | .arr _, .s _ => by simp [PValue.beq]
  | .arr _, .i _ => by simp [PValue.beq]
  | .arr _, .dec _ => by simp [PValue.beq]
  | .arr _, .obj _ => by simp [PValue.beq]
  | .obj _, .s _ => by simp [PValue.beq]
  | .obj _, .i _ => by simp [PValue.beq]
  | .obj _, .dec _ => by simp [PValue.beq]
  | .obj _, .arr _ => by simp [PValue.beq]

theorem PValue.eqList_of_beq : ∀ a b : List PValue, PValue.beqList a b = true → a = b
  | [], [] => by intro _; rfl
  | x :: xs, y :: ys => by
      simp only [PValue.beqList, Bool.and_eq_true]
      rintro ⟨h1, h2⟩
      rw [PValue.eq_of_beq x y h1, PValue.eqList_of_beq xs ys h2]
  | [], _ :: _ => by simp [PValue.beqList]
  | _ :: _, [] => by simp [PValue.beqList]

theorem PValue.eqKVList_of_beq :
    ∀ a b : List (String × PValue), PValue.beqKVList a b = true → a = b
  | [], [] => by intro _; rfl
  | (k1, v1) :: xs, (k2, v2) :: ys => by
      simp only [PValue.beqKVList, Bool.and_eq_true]
      rintro ⟨⟨hk, hv⟩, ht⟩
      rw [beq_iff_eq.mp hk, PValue.eq_of_beq v1 v2 hv, PValue.eqKVList_of_beq xs ys ht]
  | [], _ :: _ => by simp [PValue.beqKVList]
  | _ :: _, [] => by simp [PValue.beqKVList]

end

instance : DecidableEq PValue := fun a b =>
  decidable_of_iff (PValue.beq a b = true)
    ⟨PValue.eq_of_beq a b, fun h => h ▸ PValue.beq_refl a⟩

/-- An Object is its ordered list of (key, value) items, in iteration order
(pegparser.SliceMap.sl). The keyed operations below mirror SliceMap.Set /
Get / Has / Delete for the histories the mutator produces (no Set of an
existing key after a Delete at a smaller slot: on those histories the
stale-index behaviour modelled faithfully by `SliceMap` further down never
diverges from this list view). -/
abbrev Obj := List (String × PValue)

/-- SliceMap.Get projected to Object keys. -/
def objGet (o : Obj) (k : String) : Option PValue :=
  match o with
  | [] => none
  | (k2, v) :: rest => if k2 = k then some v else objGet rest k

/-- SliceMap.Has. -/
def objHas (o : Obj) (k : String) : Bool :=
  (objGet o k).isSome

/-- SliceMap.Set: replace in place when the key is present, append otherwise. -/
def objSet (o : Obj) (k : String) (v : PValue) : Obj :=
  match o with
  | [] => [(k, v)]
  | (k2, v2) :: rest => if k2 = k then (k2, v) :: rest else (k2, v2) :: objSet rest k v

/-- SliceMap.Delete: drop the key's item, keeping the other items in order. -/
def objDelete (o : Obj) (k : String) : Obj :=
  match o with
  | [] => []
  | (k2, v2) :: rest => if k2 = k then rest else (k2, v2) :: objDelete rest k

/-- Object.IsEmpty (a nil or zero-size SliceMap). -/
def objIsEmpty (o : Obj) : Bool :=
  o.isEmpty

/-- Object.GetString: the value when it is a string, "" otherwise. -/
def objGetString (o : Obj) (k : String) : String :=
  match objGet o k with
  | some (.s str) => str
  | _ => ""

/-- Object.GetObject: the value when it is an Object, a fresh empty Object
otherwise (in Go the fresh Object is detached from the tree: writes to it are
lost; call sites below account for that). -/
def objGetObject (o : Obj) (k : String) : Obj :=
  match objGet o k with
  | some (.obj l) => l
  | _ => []

/-- Object.GetInt. -/
def objGetInt (o : Obj) (k : String) : Int :=
  match objGet o k with
  | some (.i n) => n
  | _ => 0

/-- pegparser.NewObjectWithData: Set each item in turn on an empty Object. -/
def newObjectWithData (items : List (String × PValue)) : Obj :=
  items.foldl (fun acc kv => objSet acc kv.1 kv.2) []

/-- pegparser.merge_obj: add the second Object's items, in order, skipping
keys the first already has. -/
def merge_obj (o second : Obj) : Obj :=
  second.foldl (fun acc kv => if objHas acc kv.1 then acc else objSet acc kv.1 kv.2) o

/-
  The faithful pegparser.SliceMap model, index bookkeeping included: `mp`
  models the Go hash map from key to (data, idx) and `sl` the ordered slice.
  Used by the claims about slicemap.go itself.
-/

/-- The Go map from key to mapItem{data, idx}, as an association list
(lookup ignores order, keys are unique). -/
abbrev MpList := List (String × PValue × Nat)

/-- Hash-map lookup. -/
def mpLookup (mp : MpList) (k : String) : Option (PValue × Nat) :=
  match mp with
  | [] => none
  | (k2, e) :: rest => if k2 = k then some e else mpLookup rest k

/-- Hash-map store (replace or add). -/
def mpStore (mp : MpList) (k : String) (e : PValue × Nat) : MpList :=
  match mp with
  | [] => [(k, e)]
  | (k2, e2) :: rest => if k2 = k then (k2, e) :: rest else (k2, e2) :: mpStore rest k e

/-- Hash-map delete. -/
def mpErase (mp : MpList) (k : String) : MpList :=
  match mp with
  | [] => []
  | (k2, e2) :: rest => if k2 = k then rest else (k2, e2) :: mpErase rest k

/-- pegparser.SliceMap: the hash map `mp` paired with the ordered slice `sl`. -/
structure SliceMap where
  mp : MpList
  sl : List (String × PValue)
  deriving DecidableEq

/-- SliceMap.Set, exactly as slicemap.go lines 43-61: when the key is found,
overwrite mp's entry keeping its stored idx and write sl at that stored idx
(stale after a Delete of an earlier slot: the bug claim C2 exhibits);
otherwise append to sl and record the new index. -/
def SliceMap.set (m : SliceMap) (k : String) (v : PValue) : SliceMap :=
  match mpLookup m.mp k with
  | some (_, idx) =>
      { mp := mpStore m.mp k (v, idx), sl := m.sl.set idx (k, v) }
  | none =>
      { mp := mpStore m.mp k (v, m.sl.length), sl := m.sl ++ [(k, v)] }

/-- SliceMap.Delete, lines 68-74: splice the item out of sl and drop the key
from mp — without re-indexing the mp entries of the items that shifted left. -/
def SliceMap.delete (m : SliceMap) (k : String) : SliceMap :=
  match mpLookup m.mp k with
  | some (_, idx) =>
      { mp := mpErase m.mp k, sl := m.sl.take idx ++ m.sl.drop (idx + 1) }
  | none => m

/-- SliceMap.Size. -/
def SliceMap.size (m : SliceMap) : Nat :=
  m.sl.length

/-- SliceMap.GetAt, lines 90-96: guarded by idx >= len(m.sl) (a Go int that
is in range here is non-negative, so the index is a Nat). -/
def SliceMap.getAt (m : SliceMap) (idx : Nat) : Option PValue :=
  if m.sl.length ≤ idx then none
  else (m.sl.get? idx).map (·.2)

/-- SliceMap.DeleteAt, lines 98-104: only when idx < len(m.sl) splice sl and
drop the spliced item's key from mp. -/
def SliceMap.deleteAt (m : SliceMap) (idx : Nat) : SliceMap :=
  if idx < m.sl.length then
    match m.sl.get? idx with
    | some old => { mp := mpErase m.mp old.1, sl := m.sl.take idx ++ m.sl.drop (idx + 1) }
    | none => m
  else m

/-- The empty SliceMap (NewSliceMap). -/
def SliceMap.empty : SliceMap := { mp := [], sl := [] }

/-- One Set or Delete call, for claim C2's quantification over histories. -/
inductive MapOp where
  | set : String → PValue → MapOp
  | del : String → MapOp
  deriving DecidableEq

/-- Run a sequence of Set/Delete calls on a SliceMap. -/
def runOps (m : SliceMap) (ops : List MapOp) : SliceMap :=
  ops.foldl (fun acc op =>
    match op with
    | .set k v => acc.set k v
    | .del k => acc.delete k) m

/-- The five-call history that breaks order preservation: set a, set b,
set c, delete a, then set b again (b's stored index 1 is stale after the
delete, so the re-set overwrites c's slot). -/
def c2BugOps : List MapOp :=
  [.set "a" (.i 1), .set "b" (.i 2), .set "c" (.i 3), .del "a", .set "b" (.i 9)]

/-- C2: the claim that after any Set/Delete history the iteration order is the
insertion order of the surviving keys, and that Set of a present key replaces
in place, FAILS on slicemap.go: Delete (lines 68-74) splices the slice but
leaves the map's stored indices unchanged, so the later Set "b" writes slot 1
(b's stale index) and overwrites c's slot. After the history set a, set b,
set c, delete a, set b: iteration yields [("b", 2), ("b", 9)] — the key b
twice (its first occurrence carrying the stale value 2), the surviving key c
never — instead of [("b", 9), ("c", 3)]. -/
theorem c2_sliceMap_stale_index_bug :
    (runOps SliceMap.empty c2BugOps).sl = [("b", .i 2), ("b", .i 9)] ∧
    (runOps SliceMap.empty c2BugOps).sl.map Prod.fst ≠ ["b", "c"] ∧
    (runOps SliceMap.empty c2BugOps).sl ≠ [("b", .i 9), ("c", .i 3)] := by
  refine ⟨rfl, ?_, ?_⟩ <;> decide

/-- C10: positional access on an ordered mapping of size n is guarded for
every index i ≥ n: GetAt returns no value (Go: nil, false) and DeleteAt
leaves the mapping — slice and index map both — unchanged. -/
theorem c10_positional_ops_guarded (m : SliceMap) (idx : Nat) (h : m.size ≤ idx) :
    m.getAt idx = none ∧ m.deleteAt idx = m := by
  constructor
  · unfold SliceMap.getAt
    exact if_pos h
  · unfold SliceMap.deleteAt
    rw [if_neg (by unfold SliceMap.size at h; omega)]

/-- Witness for C10: a two-item mapping, probed at index 2. -/
theorem c10_positional_ops_guarded_witness :
    (runOps SliceMap.empty [.set "a" (.i 1), .set "b" (.i 2)]).size ≤ 2 ∧
    (runOps SliceMap.empty [.set "a" (.i 1), .set "b" (.i 2)]).getAt 2 = none ∧
    (runOps SliceMap.empty [.set "a" (.i 1), .set "b" (.i 2)]).deleteAt 2 =
      runOps SliceMap.empty [.set "a" (.i 1), .set "b" (.i 2)] := by
  have h := c10_positional_ops_guarded
    (runOps SliceMap.empty [.set "a" (.i 1), .set "b" (.i 2)]) 2 (by decide)
  exact ⟨by decide, h.1, h.2⟩

/-
  pbxproj utility helpers (src/unnamed/part_000: the package's util file).
-/

/-- COMMENT_KEY_SUFFIX and toCommentKey. -/
def toCommentKey (key : String) : String :=
  key ++ "_comment"

/-- isCommentKey: strings.HasSuffix(key, "_comment") (over the character
lists, so that proofs evaluate it by kernel reduction). -/
def isCommentKey (key : String) : Bool :=
  "_comment".data.isSuffixOf key.data

/-- fromCommentKey: strings.TrimSuffix. -/
def fromCommentKey (key : String) : String :=
  if isCommentKey key then String.mk (key.data.take (key.data.length - 8)) else key

/-- First item whose key passes nonCommentsFilter (a ForeachWithFilter that
breaks at its first hit; Foreach skips nil data, and no item here is nil). -/
def firstNonComment (sec : Obj) : Option (String × PValue) :=
  sec.find? (fun kv => ¬ isCommentKey kv.1)

/-
  Known regions (pbxProject.go lines 1797-1864). getFirstProject scans the
  PBXProject section for its first non-comment item. All three region
  operations then fetch the project record with
  pbxProjectSection.GetObject(firstProject.GetString("project")): the key
  "project" read from the record itself, not the record's UUID.
-/

/-- getFirstProject's UUID: the first non-comment key of the PBXProject
section, "" when there is none. -/
def getFirstProjectUUID (sec : Obj) : String :=
  match firstNonComment sec with
  | some (k, _) => k
  | none => ""

/-- getFirstProject's record (Go type-asserts value.(Object); non-comment
values of a PBXProject section are records). -/
def getFirstProjectRecord (sec : Obj) : Obj :=
  match firstNonComment sec with
  | some (_, .obj l) => l
  | _ => []

/-- HasKnownRegion over the PBXProject section: resolves the project record
by GetString("project") of the first project record, then scans its
knownRegions sequence. -/
def hasKnownRegion (sec : Obj) (name : String) : Bool :=
  if getFirstProjectUUID sec = "" then false
  else
    let projectUuid := objGetString (getFirstProjectRecord sec) "project"
    let project := objGetObject sec projectUuid
    if objIsEmpty project then false
    else
      match objGet project "knownRegions" with
      | some (.arr l) => l.any (fun v => v = .s name)
      | _ => false

/-- AddKnownRegion: append the region to the resolved project record's
knownRegions (creating the sequence when absent), writing the record back
at the key it was fetched by. -/
def addKnownRegion (sec : Obj) (name : String) : Obj :=
  if getFirstProjectUUID sec = "" then sec
  else
    let projectUuid := objGetString (getFirstProjectRecord sec) "project"
    let project := objGetObject sec projectUuid
    if objIsEmpty project then sec
    else if ¬ objHas project "knownRegions" then
      objSet sec projectUuid (.obj (objSet project "knownRegions" (.arr [.s name])))
    else if ¬ hasKnownRegion sec name then
      match objGet project "knownRegions" with
      | some (.arr l) =>
          objSet sec projectUuid (.obj (objSet project "knownRegions" (.arr (l ++ [.s name]))))
      | _ => sec
    else sec

/-- RemoveKnownRegion: splice the region's first occurrence out of the
resolved record's knownRegions. -/
def removeKnownRegion (sec : Obj) (name : String) : Obj :=
  if getFirstProjectUUID sec = "" then sec
  else
    let projectUuid := objGetString (getFirstProjectRecord sec) "project"
    let project := objGetObject sec projectUuid
    if objIsEmpty project then sec
    else
      match objGet project "knownRegions" with
      | some (.arr l) =>
          match l.indexOf? (.s name) with
          | some idx =>
              objSet sec projectUuid
                (.obj (objSet project "knownRegions" (.arr (l.take idx ++ l.drop (idx + 1)))))
          | none => sec
      | _ => sec

/-- A loaded project's PBXProject section with one project record that has a
knownRegions sequence ["en"]. -/
def c9Section : Obj :=
  [("AAAAAAAAAAAAAAAAAAAAAAAA",
      .obj [("isa", .s "PBXProject"),
            ("knownRegions", .arr [.s "en"]),
            ("targets", .arr [])]),
   ("AAAAAAAAAAAAAAAAA" ++ "AAAAAAA_comment", .s "Project object")]

/-- C9: on a project with a PBXProject record, AddKnownRegion / HasKnownRegion
/ RemoveKnownRegion are all no-ops: each resolves the project record by
GetString("project") of the record itself — a key no PBXProject record has —
so the lookup key is "" and the fetched record is always empty. Adding "de"
leaves the section unchanged and HasKnownRegion then answers false; even the
region "en" already present is reported absent, and removing it changes
nothing. The claim's expected behaviour (contains r, Has r = true after
AddKnownRegion r) never occurs. -/
theorem c9_knownRegions_noop_bug :
    getFirstProjectUUID c9Section = "AAAAAAAAAAAAAAAAAAAAAAAA" ∧
    addKnownRegion c9Section "de" = c9Section ∧
    hasKnownRegion c9Section "de" = false ∧
    hasKnownRegion c9Section "en" = false ∧
    removeKnownRegion c9Section "en" = c9Section := by
  refine ⟨by decide, by decide, by decide, by decide, by decide⟩

/-
  AddBuildPhase's PBXShellScriptBuildPhase payload (pbxProject.go lines
  842-872 build the base record, lines 1436-1452 fill the shell-script
  fields).
-/

/-- pbxShellScriptBuildPhaseObjOptions. -/
structure PbxShellScriptBuildPhaseObjOptions where
  inputPaths : Option (List String)
  outputPaths : Option (List String)
  shellScript : String

/-- The base build-phase record AddBuildPhase constructs before dispatching
on the phase type (lines 850-855). -/
def addBuildPhaseBaseObj (buildPhaseType : String) : Obj :=
  newObjectWithData
    [("isa", .s buildPhaseType),
     ("buildActionMask", .i 2147483647),
     ("files", .arr []),
     ("runOnlyForDeploymentPostprocessing", .i 0)]

/-- pbxShellScriptBuildPhaseObj: fills name, inputPaths, outputPaths,
shellPath and shellScript. Lines 1444-1448 read options.InputPaths a second
time when writing outputPaths — the behaviour claim C8 is about. -/
def pbxShellScriptBuildPhaseObj (obj : Obj) (options : PbxShellScriptBuildPhaseObjOptions)
    (phaseName : String) : Obj :=
  let obj := objSet obj "name" (.s ("\"" ++ phaseName ++ "\""))
  let obj :=
    match options.inputPaths with
    | some l => objSet obj "inputPaths" (.arr (l.map .s))
    | none => objSet obj "inputPaths" (.arr [])
  let obj :=
    match options.inputPaths with
    | some l => objSet obj "outputPaths" (.arr (l.map .s))
    | none => objSet obj "outputPaths" (.arr [])
  let obj := objSet obj "shellPath" (.s options.shellScript)
  let obj :=
    objSet obj "shellScript"
      (.s ("\"" ++ (options.shellScript.replace "\"" "\\\\\"") ++ "\""))
  obj

/-- Options payload with distinct input and output paths. -/
def c8Options : PbxShellScriptBuildPhaseObjOptions :=
  { inputPaths := some ["a"], outputPaths := some ["b"], shellScript := "s" }

/-- C8: for AddBuildPhase with type PBXShellScriptBuildPhase and payload
inputPaths = ["a"], outputPaths = ["b"], the created record's inputPaths is
["a"] as claimed but its outputPaths is also ["a"] — copied from
options.InputPaths, not options.OutputPaths — so the claimed equality
outputPaths = options.OutputPaths fails. -/
theorem c8_shellScript_outputPaths_bug :
    objGet (pbxShellScriptBuildPhaseObj (addBuildPhaseBaseObj "PBXShellScriptBuildPhase")
        c8Options "Run Script") "inputPaths" = some (.arr [.s "a"]) ∧
    objGet (pbxShellScriptBuildPhaseObj (addBuildPhaseBaseObj "PBXShellScriptBuildPhase")
        c8Options "Run Script") "outputPaths" = some (.arr [.s "a"]) ∧
    some (PValue.arr [.s "a"]) ≠ some (PValue.arr [.s "b"]) := by
  refine ⟨rfl, rfl, by decide⟩

/-
  Go path/filepath helpers, for the slash-separated paths the library
  handles (the unix separator, so ToSlash is the identity). Clean's ".."
  handling is not modelled: no embedded call site passes "..".
-/

/-- filepath.ToSlash on a unix host: the identity. -/
def filepathToSlash (p : String) : String := p

/-- Split a character list at '/' separators. -/
def splitSlash (l : List Char) : List (List Char) :=
  match l with
  | [] => [[]]
  | c :: rest =>
      let r := splitSlash rest
      if c = '/' then [] :: r
      else
        match r with
        | h :: t => (c :: h) :: t
        | [] => [[c]]

/-- filepath.Clean for rooted/relative slash paths without "..": drop empty
and "." components, keep the leading slash, "" cleans to ".". -/
def cleanPath (p : String) : String :=
  let comps := (splitSlash p.data).filter (fun c => c ≠ [] ∧ c ≠ ['.'])
  let joined := String.mk ((comps.map (fun c => c ++ ['/'])).flatten.dropLast)
  if p.data.head? = some '/' then "/" ++ joined
  else if joined = "" then "." else joined

/-- filepath.Base: "" gives ".", trailing slashes are dropped, the last
element remains, an all-slash path gives "/". -/
def filepathBase (p : String) : String :=
  if p = "" then "."
  else
    let l := (p.data.reverse.dropWhile (· = '/')).reverse
    if l = [] then "/"
    else String.mk (l.reverse.takeWhile (· ≠ '/')).reverse

/-- filepath.Ext: the suffix of the final element from its last dot,
"" when the final element has no dot. -/
def filepathExt (p : String) : String :=
  let finRev := p.data.reverse.takeWhile (· ≠ '/')
  let extRev := finRev.takeWhile (· ≠ '.')
  if extRev.length = finRev.length then ""
  else String.mk ('.' :: extRev.reverse)

/-- filepath.Dir: everything before the final element, Cleaned; "." when the
path has no separator. -/
def filepathDir (p : String) : String :=
  let restRev := p.data.reverse.dropWhile (· ≠ '/')
  if restRev = [] then "." else cleanPath (String.mk restRev.reverse)

/-- filepath.Join of two elements: empty elements are skipped, the rest
joined with '/' and Cleaned. -/
def filepathJoin (a b : String) : String :=
  if a = "" then (if b = "" then "" else cleanPath b)
  else if b = "" then cleanPath a
  else cleanPath (a ++ "/" ++ b)

/-
  The lookup tables and PbxFile construction (the pbxFile part of the
  pbxproj package, pbxProject.go lines 2132-2439 as staged).
-/

/-- unquoted: the regexp (^")|("$) replaced by "" — strip one leading and
one trailing double quote, each independently. -/
def unquoted (text : String) : String :=
  if text = "" then text
  else
    let l := text.data
    let l := match l with
      | '"' :: rest => rest
      | other => other
    let l := if l.getLast? = some '"' then l.dropLast else l
    String.mk l

/-- FILETYPE_BY_EXTENSION. -/
def FILETYPE_BY_EXTENSION (ext : String) : Option String :=
  match ext with
  | "a" => some "archive.ar"
  | "app" => some "wrapper.application"
  | "appex" => some "wrapper.app-extension"
  | "bundle" => some "wrapper.plug-in"
  | "dylib" => some "compiled.mach-o.dylib"
  | "framework" => some "wrapper.framework"
  | "h" => some "sourcecode.c.h"
  | "m" => some "sourcecode.c.objc"
  | "markdown" => some "text"
  | "mdimporter" => some "wrapper.cfbundle"
  | "octest" => some "wrapper.cfbundle"
  | "pch" => some "sourcecode.c.h"
  | "plist" => some "text.plist.xml"
  | "sh" => some "text.script.sh"
  | "swift" => some "sourcecode.swift"
  | "tbd" => some "sourcecode.text-based-dylib-definition"
  | "xcassets" => some "folder.assetcatalog"
  | "xcconfig" => some "text.xcconfig"
  | "xcdatamodel" => some "wrapper.xcdatamodel"
  | "xcodeproj" => some "wrapper.pb-project"
  | "xctest" => some "wrapper.cfbundle"
  | "xib" => some "file.xib"
  | "strings" => some "text.plist.strings"
  | _ => none

/-- EXTENSION_BY_FILETYPE: revertMap(FILETYPE_BY_EXTENSION). Go builds it by
iterating the map in unspecified order, so for a file type with several
extensions (wrapper.cfbundle, sourcecode.c.h, wrapper.application ×
wrapper.app-extension collide with watch types only through
filetypeForProducttype, not here) the surviving entry is unspecified; one
choice is fixed here, and no claim evaluates a colliding entry. -/
def EXTENSION_BY_FILETYPE (t : String) : Option String :=
  match t with
  | "archive.ar" => some "a"
  | "wrapper.application" => some "app"
  | "wrapper.app-extension" => some "appex"
  | "wrapper.plug-in" => some "bundle"
  | "compiled.mach-o.dylib" => some "dylib"
  | "wrapper.framework" => some "framework"
  | "sourcecode.c.h" => some "pch"
  | "sourcecode.c.objc" => some "m"
  | "text" => some "markdown"
  | "wrapper.cfbundle" => some "xctest"
  | "text.plist.xml" => some "plist"
  | "text.script.sh" => some "sh"
  | "sourcecode.swift" => some "swift"
  | "sourcecode.text-based-dylib-definition" => some "tbd"
  | "folder.assetcatalog" => some "xcassets"
  | "text.xcconfig" => some "xcconfig"
  | "wrapper.xcdatamodel" => some "xcdatamodel"
  | "wrapper.pb-project" => some "xcodeproj"
  | "file.xib" => some "xib"
  | "text.plist.strings" => some "strings"
  | _ => none

/-- GROUP_BY_FILETYPE. -/
def GROUP_BY_FILETYPE (t : String) : Option String :=
  match t with
  | "archive.ar" => some "Frameworks"
  | "compiled.mach-o.dylib" => some "Frameworks"
  | "sourcecode.text-based-dylib-definition" => some "Frameworks"
  | "wrapper.framework" => some "Frameworks"
  | "embedded.framework" => some "Embed Frameworks"
  | "sourcecode.c.h" => some "Resources"
  | "sourcecode.c.objc" => some "Sources"
  | "sourcecode.swift" => some "Sources"
  | _ => none

/-- PATH_BY_FILETYPE. -/
def PATH_BY_FILETYPE (t : String) : Option String :=
  match t with
  | "compiled.mach-o.dylib" => some "usr/lib/"
  | "sourcecode.text-based-dylib-definition" => some "usr/lib/"
  | "wrapper.framework" => some "System/Library/Frameworks/"
  | _ => none

/-- SOURCETREE_BY_FILETYPE. -/
def SOURCETREE_BY_FILETYPE (t : String) : Option String :=
  match t with
  | "compiled.mach-o.dylib" => some "SDKROOT"
  | "sourcecode.text-based-dylib-definition" => some "SDKROOT"
  | "wrapper.framework" => some "SDKROOT"
  | _ => none

/-- ENCODING_BY_FILETYPE (every listed type maps to 4). -/
def ENCODING_BY_FILETYPE (t : String) : Option Int :=
  match t with
  | "sourcecode.c.h" => some 4
  | "sourcecode.c.objc" => some 4
  | "sourcecode.swift" => some 4
  | "text" => some 4
  | "text.plist.xml" => some 4
  | "text.script.sh" => some 4
  | "text.xcconfig" => some 4
  | "text.plist.strings" => some 4
  | _ => none

/-- PbxFileOptions (pbxProject.go lines 2221-2236). -/
structure PbxFileOptions where
  lastKnownFileType : String
  customFramework : Bool
  defaultEncoding : Int
  explicitFileType : String
  sourceTree : String
  weak : Bool
  compilerFlags : String
  embed : Bool
  sign : Bool
  target : String
  group : String
  plugin : Bool
  variantGroup : Bool
  link : Bool

/-- The Go zero value of PbxFileOptions: what parseFileVariadicParams yields
when the caller passes no options. -/
def zeroPbxFileOptions : PbxFileOptions :=
  { lastKnownFileType := "", customFramework := false, defaultEncoding := 0,
    explicitFileType := "", sourceTree := "", weak := false, compilerFlags := "",
    embed := false, sign := false, target := "", group := "", plugin := false,
    variantGroup := false, link := false }

/-- newPbxFileOptions(): the zero options with Link = true. -/
def newPbxFileOptions : PbxFileOptions :=
  { zeroPbxFileOptions with link := true }

/-- The PbxFile view (pbxProject.go lines 2249-2268). Models and CurrentModel
are omitted: only addToXcVersionGroupSection reads them and no claim reaches
it. -/
structure PbxFile where
  basename : String
  fileRef : String
  lastKnownFileType : String
  group : String
  customFramework : Bool
  dirname : String
  path : String
  fileEncoding : Int
  explicitFileType : String
  sourceTree : String
  defaultEncoding : Int
  includeInIndex : Int
  settings : Obj
  uuid : String
  target : String
  plugin : Bool
  deriving DecidableEq

/-- The zero PbxFile the literal PbxFile{IncludeInIndex: 0} starts from. -/
def zeroPbxFile : PbxFile :=
  { basename := "", fileRef := "", lastKnownFileType := "", group := "",
    customFramework := false, dirname := "", path := "", fileEncoding := 0,
    explicitFileType := "", sourceTree := "", defaultEncoding := 0,
    includeInIndex := 0, settings := [], uuid := "", target := "", plugin := false }

/-- pbxfile.detectType: the path's extension without its dot, looked up in
FILETYPE_BY_EXTENSION, "unknown" as default. (Go slices Ext(filePath)[1:],
which panics on an extensionless path; call sites in the claims always pass
paths with an extension.) -/
def PbxFile.detectType (filePath : String) : String :=
  match FILETYPE_BY_EXTENSION (unquoted ((filepathExt filePath).drop 1)) with
  | some t => t
  | none => "unknown"

/-- pbxfile.defaultExtension: invert the file type (preferring
LastKnownFileType when set and not "unknown"). Go panics when the type is
unknown; modelled as "" and unreached by the claims with that argument. -/
def PbxFile.defaultExtension (f : PbxFile) : String :=
  let filetype := if f.lastKnownFileType ≠ "" ∧ f.lastKnownFileType ≠ "unknown"
    then f.lastKnownFileType else f.explicitFileType
  match EXTENSION_BY_FILETYPE (unquoted filetype) with
  | some e => e
  | none => ""

/-- pbxfile.detectGroup: .xcdatamodeld goes to Sources, embedded custom
frameworks to Embed Frameworks, otherwise GROUP_BY_FILETYPE with default
"Resources". -/
def PbxFile.detectGroup (f : PbxFile) (options : PbxFileOptions) : String :=
  let extension := (filepathExt f.basename).drop 1
  if extension = "xcdatamodeld" then "Sources"
  else
    let filetype := if f.lastKnownFileType ≠ "" then f.lastKnownFileType
      else f.explicitFileType
    if options.customFramework ∧ options.embed then "Embed Frameworks"
    else
      match GROUP_BY_FILETYPE (unquoted filetype) with
      | some g => g
      | none => "Resources"

/-- pbxfile.initDefaultEncoding: ENCODING_BY_FILETYPE with default 4. -/
def PbxFile.initDefaultEncoding (f : PbxFile) : Int :=
  let filetype := if f.lastKnownFileType ≠ "" then f.lastKnownFileType
    else f.explicitFileType
  match ENCODING_BY_FILETYPE (unquoted filetype) with
  | some e => e
  | none => 4

/-- pbxfile.detectSourcetree: product files get BUILT_PRODUCTS_DIR, custom
frameworks the group tree, otherwise SOURCETREE_BY_FILETYPE with the quoted
group default. -/
def PbxFile.detectSourcetree (f : PbxFile) : String :=
  if f.explicitFileType ≠ "" then "BUILT_PRODUCTS_DIR"
  else if f.customFramework then "\"<group>\""
  else
    let filetype := if f.lastKnownFileType ≠ "" then f.lastKnownFileType
      else f.explicitFileType
    match SOURCETREE_BY_FILETYPE (unquoted filetype) with
    | some t => t
    | none => "\"<group>\""

/-- pbxfile.defaultPath: custom frameworks keep the given path; types in
PATH_BY_FILETYPE are re-rooted there by basename; otherwise the given path. -/
def PbxFile.defaultPath (f : PbxFile) (filePath : String) : String :=
  if f.customFramework then filePath
  else
    let filetype := if f.lastKnownFileType ≠ "" then f.lastKnownFileType
      else f.explicitFileType
    match PATH_BY_FILETYPE (unquoted filetype) with
    | some d => filepathJoin d (filepathBase filePath)
    | none => filePath

/-- addToObjectList (src/unnamed/part_000 lines 103-114): a no-op on an empty
Object; otherwise append to the key's []interface{} value, creating the
one-element list when the key is absent. A non-sequence value under the key
makes Go's list.([]interface{}) assertion panic: modelled as the error case. -/
def addToObjectList (obj : Obj) (key : String) (val : PValue) : Except String Obj :=
  if objIsEmpty obj then .ok obj
  else
    match objGet obj key with
    | none => .ok (objSet obj key (.arr [val]))
    | some (.arr l) => .ok (objSet obj key (.arr (l ++ [val])))
    | some _ => .error "panic: interface conversion: interface is not a sequence"

/-- addToObjectList at call sites where the panic case is unreachable (the
key is fresh or its value a sequence by construction). -/
def addToObjectListD (obj : Obj) (key : String) (val : PValue) : Obj :=
  match addToObjectList obj key val with
  | .ok r => r
  | .error _ => obj

/-- The index loop of removeFromObjectList (part_000 lines 143-150): the Go
range iterates the original list while `list` is re-spliced, so the
condition is evaluated on the original elements and the splice happens at
the original index in the current list (exact for all = false, the only mode
the mutator uses). -/
def removeFromListGo (cond : PValue → Bool) (all : Bool) :
    Nat → List PValue → List PValue → List PValue
  | _, [], cur => cur
  | i, v :: rest, cur =>
      if cond v then
        let cur2 := cur.eraseIdx i
        if all then removeFromListGo cond all (i + 1) rest cur2 else cur2
      else removeFromListGo cond all (i + 1) rest cur

/-- removeFromObjectList (part_000 lines 134-153). -/
def removeFromObjectList (obj : Obj) (key : String) (cond : PValue → Bool)
    (all : Bool) : Except String Obj :=
  if objIsEmpty obj then .ok obj
  else
    match objGet obj key with
    | none => .ok obj
    | some (.arr l) => .ok (objSet obj key (.arr (removeFromListGo cond all 0 l l)))
    | some _ => .error "panic: interface conversion: interface is not a sequence"

/-- newPbxFile (pbxProject.go lines 2270-2333), field for field in the Go
assignment order. The Weak/CodeSignOnCopy attributes go through
addToObjectList, whose empty-Object guard makes them no-ops on a fresh
Settings object, exactly as in Go. -/
def newPbxFile (filePath : String) (options : PbxFileOptions) : PbxFile :=
  let f := { zeroPbxFile with includeInIndex := 0, basename := filepathBase filePath }
  let f := { f with lastKnownFileType :=
    if options.lastKnownFileType ≠ "" then options.lastKnownFileType
    else PbxFile.detectType filePath }
  let f := if options.customFramework then
      { f with customFramework := true, dirname := filepathToSlash (filepathDir filePath) }
    else f
  let f := { f with defaultEncoding :=
    if options.defaultEncoding ≠ 0 then options.defaultEncoding
    else f.initDefaultEncoding }
  let f := { f with fileEncoding := f.defaultEncoding }
  let f :=
    if options.explicitFileType ≠ "" then
      let f2 := { f with explicitFileType := options.explicitFileType }
      { f2 with basename := f2.basename ++ "." ++ f2.defaultExtension,
                path := "", lastKnownFileType := "", group := "",
                defaultEncoding := 4 }
    else
      { f with group := f.detectGroup options,
               path := filepathToSlash (f.defaultPath filePath) }
  let f := { f with sourceTree :=
    if options.sourceTree ≠ "" then options.sourceTree else f.detectSourcetree }
  let f := if options.weak then
      { f with settings := addToObjectListD f.settings "ATTRIBUTES" (.s "Weak") }
    else f
  let f := if options.compilerFlags ≠ "" then
      { f with settings := (objSet f.settings "COMPILER_FLAGS"
          (.s ("\"" ++ options.compilerFlags ++ "\""))) }
    else f
  let f := if options.embed ∧ options.sign then
      { f with settings := addToObjectListD f.settings "ATTRIBUTES" (.s "CodeSignOnCopy") }
    else f
  f

/-
  PBXFileReference section operations (pbxProject.go lines 616-638) and the
  record/comment builders they use (lines 1361-1372, 1458-1472).
-/

/-- newPbxFileReferenceObj: the full record, name and path quoted. -/
def newPbxFileReferenceObj (f : PbxFile) : Obj :=
  newObjectWithData
    [("isa", .s "PBXFileReference"),
     ("name", .s ("\"" ++ f.basename ++ "\"")),
     ("fileEncoding", .i f.fileEncoding),
     ("lastKnownFileType", .s f.lastKnownFileType),
     ("path", .s ("\"" ++ filepathToSlash f.path ++ "\"")),
     ("sourceTree", .s f.sourceTree),
     ("explicitFileType", .s f.explicitFileType),
     ("includeInIndex", .i f.includeInIndex)]

/-- pbxFileReferenceComment: the basename, or the path's base when empty. -/
def pbxFileReferenceComment (f : PbxFile) : String :=
  if f.basename ≠ "" then f.basename else filepathBase f.path

/-- longComment: "<basename> in <group>". -/
def longComment (f : PbxFile) : String :=
  f.basename ++ " in " ++ f.group

/-- pbxBuildFileComment = longComment. -/
def pbxBuildFileComment (f : PbxFile) : String :=
  longComment f

/-- pbxBuildFileObj (lines 1350-1359): isa, fileRef, its comment twin, and
settings when non-empty. -/
def pbxBuildFileObj (f : PbxFile) : Obj :=
  let o := objSet [] "isa" (.s "PBXBuildFile")
  let o := objSet o "fileRef" (.s f.fileRef)
  let o := objSet o (toCommentKey "fileRef") (.s f.basename)
  if ¬ objIsEmpty f.settings then objSet o "settings" (.obj f.settings) else o

/-- addToPbxFileReferenceSection: Set the record at the file's FileRef, then
Set the comment twin right after it. -/
def addToPbxFileReferenceSection (sec : Obj) (f : PbxFile) : Obj :=
  objSet (objSet sec f.fileRef (.obj (newPbxFileReferenceObj f)))
    (toCommentKey f.fileRef) (.s (pbxFileReferenceComment f))

/-- The match of removeFromPbxFileReferenceSection's loop body: the stored
record's name or path equals the removed file's freshly built quoted name or
path, directly or re-quoted. (Go type-asserts the non-comment value to
Object; file-reference sections hold records there.) -/
def fileRefRecordMatches (refObjName refObjPath : String) (v : PValue) : Bool :=
  let record := match v with | .obj l => l | _ => []
  let name := objGetString record "name"
  let path := objGetString record "path"
  name = refObjName ∨ "\"" ++ name ++ "\"" = refObjName ∨
    path = refObjPath ∨ "\"" ++ path ++ "\"" = refObjPath

/-- removeFromPbxFileReferenceSection (lines 621-638): find the first
matching non-comment record, Delete its key, then Delete
toCommentKey(record.GetString("FileRef")) — the record field "FileRef", not
the record's own key — and break. -/
def removeFromPbxFileReferenceSection (sec : Obj) (f : PbxFile) : Obj :=
  let refObj := newPbxFileReferenceObj f
  let refObjName := objGetString refObj "name"
  let refObjPath := objGetString refObj "path"
  match sec.find? (fun kv =>
      ¬ isCommentKey kv.1 ∧ fileRefRecordMatches refObjName refObjPath kv.2) with
  | none => sec
  | some (k, v) =>
      let record := match v with | .obj l => l | _ => []
      objDelete (objDelete sec k) (toCommentKey (objGetString record "FileRef"))

/-- The plugin source file of claim C3's scenario: AddSourceFile("foo.m")
constructs this PbxFile before inserting it (addPluginFile sets Plugin and
a fresh FileRef; correctForPluginsPath is the identity when no Plugins group
exists). -/
def c3File : PbxFile :=
  { newPbxFile "foo.m" zeroPbxFileOptions with
      plugin := true, fileRef := "BBBBBBBBBBBBBBBBBBBBBBBB" }

/-- C3: the insert half holds — addToPbxFileReferenceSection writes the pair
K, K_comment adjacently — but the delete half fails: on remove, the code
deletes K together with toCommentKey(record.GetString("FileRef")) = the
literal key "_comment" (no file-reference record has a "FileRef" field), so
K_comment survives K and the bucket is left with an orphaned comment entry,
violating "either both exist or neither". -/
theorem c3_comment_pair_broken_on_remove :
    addToPbxFileReferenceSection [] c3File =
      [("BBBBBBBBBBBBBBBBBBBBBBBB", .obj (newPbxFileReferenceObj c3File)),
       ("BBBBBBBBBBBBBBBBBBBBBBBB_comment", .s "foo.m")] ∧
    removeFromPbxFileReferenceSection (addToPbxFileReferenceSection [] c3File) c3File =
      [("BBBBBBBBBBBBBBBBBBBBBBBB_comment", .s "foo.m")] ∧
    objHas (removeFromPbxFileReferenceSection
        (addToPbxFileReferenceSection [] c3File) c3File) "BBBBBBBBBBBBBBBBBBBBBBBB" = false ∧
    objHas (removeFromPbxFileReferenceSection
        (addToPbxFileReferenceSection [] c3File) c3File)
      (toCommentKey "BBBBBBBBBBBBBBBBBBBBBBBB") = true := by
  refine ⟨by decide, by decide, by decide, by decide⟩

/-
  The mutator state (pbxProject.go struct PbxProject) for the add/remove
  flows. `objects` is the tree's objects mapping; the cached section fields
  of the Go struct alias entries of it, which the accessors below model as
  lookup and write-back (the concrete states used keep every written section
  key present in `objects`, so the alias view is exact). `groupSection` is
  p.pbxGroupSection, read by initSections from the TOP project mapping
  (line 112) — which has no "PBXGroup" key in a parsed project, so this field
  is a detached, always-empty Object. `fileNoCommentRefs` models
  p.pbxFileNoCommentReferences, which no code ever writes. `uuidSupply`
  models generateUuid's stream of fresh 24-hex uuids (Go draws random v4
  uuids, retrying on collision; the supply is assumed collision-free). -/
structure ProjState where
  objects : Obj
  groupSection : Obj
  fileNoCommentRefs : List (String × PbxFile)
  uuidSupply : List String
  deriving DecidableEq

/-- A cached section, read through the objects mapping. -/
def psGetSection (st : ProjState) (name : String) : Obj :=
  objGetObject st.objects name

/-- Write a cached section back through the objects mapping. -/
def psSetSection (st : ProjState) (name : String) (sec : Obj) : ProjState :=
  { st with objects := objSet st.objects name (.obj sec) }

/-- generateUuid: draw the next fresh uuid from the supply. -/
def generateUuid (st : ProjState) : String × ProjState :=
  match st.uuidSupply with
  | u :: rest => (u, { st with uuidSupply := rest })
  | [] => ("", st)

/-- getFile (lines 1192-1203): look the path up, then its quoted form, in
pbxFileNoCommentReferences. -/
def getFile (st : ProjState) (filePath : String) : Option PbxFile :=
  match st.fileNoCommentRefs.find? (fun kv => kv.1 = filePath) with
  | some kv => some kv.2
  | none =>
      match st.fileNoCommentRefs.find? (fun kv => kv.1 = "\"" ++ filePath ++ "\"") with
      | some kv => some kv.2
      | none => none

/-- hasFile: getFile found something. -/
def hasFile (st : ProjState) (filePath : String) : Bool :=
  (getFile st filePath).isSome

/-- pbxGroupByName (lines 933-943) over p.pbxGroupSection: the first comment
item whose string value is the name selects the record at the un-commented
key. -/
def pbxGroupByName (st : ProjState) (name : String) : Obj :=
  match st.groupSection.find? (fun kv => isCommentKey kv.1 ∧ kv.2 = .s name) with
  | some (k, _) => objGetObject st.groupSection (fromCommentKey k)
  | none => []

/-- The regexp ^<groupName>[\\/] replaced once at the front of the path. -/
def stripGroupDir (groupName p : String) : String :=
  if p.data.take groupName.data.length = groupName.data then
    match p.data.drop groupName.data.length with
    | c :: rest => if c = '/' ∨ c = '\\' then String.mk rest else p
    | [] => p
  else p

/-- correctForPath (lines 1487-1498): when the named group exists and has a
path, strip the "<groupName>/" prefix from the file's path. -/
def correctForPath (st : ProjState) (f : PbxFile) (groupName : String) : PbxFile :=
  let group := pbxGroupByName st groupName
  if ¬ objIsEmpty group ∧ objGetString group "path" ≠ "" then
    { f with path := stripGroupDir groupName f.path }
  else f

/-- correctForPluginsPath. -/
def correctForPluginsPath (st : ProjState) (f : PbxFile) : PbxFile :=
  correctForPath st f "Plugins"

/-- addToPbxFileReferenceSection at the state level. -/
def psAddToPbxFileReferenceSection (st : ProjState) (f : PbxFile) : ProjState :=
  psSetSection st "PBXFileReference"
    (addToPbxFileReferenceSection (psGetSection st "PBXFileReference") f)

/-- removeFromPbxFileReferenceSection at the state level. -/
def psRemoveFromPbxFileReferenceSection (st : ProjState) (f : PbxFile) : ProjState :=
  psSetSection st "PBXFileReference"
    (removeFromPbxFileReferenceSection (psGetSection st "PBXFileReference") f)

/-- addToPbxBuildFileSection (lines 504-507) at the state level. -/
def psAddToPbxBuildFileSection (st : ProjState) (f : PbxFile) : ProjState :=
  let sec := psGetSection st "PBXBuildFile"
  let sec := objSet sec f.uuid (.obj (pbxBuildFileObj f))
  let sec := objSet sec (toCommentKey f.uuid) (.s (pbxBuildFileComment f))
  psSetSection st "PBXBuildFile" sec

/-- removeFromPbxBuildFileSection (lines 509-517): iterate the (empty,
detached) group section's non-comment records and, where the record's
FileRef_comment equals the file's basename, delete that record's key and its
comment twin from the build-file section. (Go type-asserts each value to
Object; the group records a group section holds are Objects.) -/
def removeFromPbxBuildFileSection (st : ProjState) (f : PbxFile) : ProjState :=
  st.groupSection.foldl (fun acc kv =>
    if isCommentKey kv.1 then acc
    else
      let record := match kv.2 with | .obj l => l | _ => []
      if objGetString record (toCommentKey "FileRef") = f.basename then
        psSetSection acc "PBXBuildFile"
          (objDelete (objDelete (psGetSection acc "PBXBuildFile") kv.1)
            (toCommentKey kv.1))
      else acc) st

/-- CommentValue.ToObject: {value, comment}. -/
def commentValueToObject (value comment : String) : Obj :=
  newObjectWithData [("value", .s value), ("comment", .s comment)]

/-- pbxGroupChild: the file's FileRef and basename. -/
def pbxGroupChild (f : PbxFile) : String × String :=
  (f.fileRef, f.basename)

/-- pbxBuildPhaseObj (lines 1381-1386): {value: uuid, comment: longComment}. -/
def pbxBuildPhaseObj (f : PbxFile) : Obj :=
  objSet (objSet [] "value" (.s f.uuid)) "comment" (.s (longComment f))

/-- buildPhase (lines 991-1013): the comment key of the target's build phase
whose comment equals the group, "" when target or phase is missing. (Both
the buildPhases sequence and its entries are type-asserted in Go; native
targets hold a sequence of {value, comment} Objects there.) -/
def buildPhase (st : ProjState) (group target : String) : String :=
  if target = "" then ""
  else
    let nativeTarget := objGetObject (psGetSection st "PBXNativeTarget") target
    if objIsEmpty nativeTarget then ""
    else
      match objGet nativeTarget "buildPhases" with
      | some (.arr phases) =>
          match phases.find? (fun bp =>
              match bp with
              | .obj o => objGetString o "comment" = group
              | _ => false) with
          | some (.obj o) => toCommentKey (objGetString o "value")
          | _ => ""
      | _ => ""

/-- buildPhaseObject (lines 1015-1035), returning the section key of the
found record so that writes go back into the tree: scan the section's
comment items for the group name, restricted to buildPhase's key when it
returns one. none models the detached NewObject() result (not found or the
section empty), on which every list mutation is a guarded no-op. -/
def buildPhaseObjectLoc (st : ProjState) (name group target : String) : Option String :=
  let sectionObj := psGetSection st name
  if objIsEmpty sectionObj then none
  else
    let bp := buildPhase st group target
    match sectionObj.find? (fun kv =>
        isCommentKey kv.1 ∧ (bp = "" ∨ bp = kv.1) ∧ kv.2 = .s group) with
    | some (k, _) => some (fromCommentKey k)
    | none => none

/-- addToPbxBuildPhase (lines 718-720) composed with the buildPhaseObject
lookup of the pbx*BuildPhaseObj helpers: append the file's {value, comment}
entry to the found phase's files sequence. -/
def psAddToPbxBuildPhase (st : ProjState) (sectionName group : String) (f : PbxFile) :
    Except String ProjState :=
  match buildPhaseObjectLoc st sectionName group f.target with
  | none => .ok st
  | some k =>
      let sec := psGetSection st sectionName
      let phaseObj := objGetObject sec k
      do
        let phaseObj2 ← addToObjectList phaseObj "files" (.obj (pbxBuildPhaseObj f))
        .ok (psSetSection st sectionName (objSet sec k (.obj phaseObj2)))

/-- removeFromPbxBuildPhase (lines 722-727) composed with the same lookup:
drop the first files entry whose comment is the file's long comment. -/
def psRemoveFromPbxBuildPhase (st : ProjState) (sectionName group : String) (f : PbxFile) :
    Except String ProjState :=
  match buildPhaseObjectLoc st sectionName group f.target with
  | none => .ok st
  | some k =>
      let sec := psGetSection st sectionName
      let phaseObj := objGetObject sec k
      do
        let phaseObj2 ← removeFromObjectList phaseObj "files"
          (fun file =>
            match file with
            | .obj o => objGetString o "comment" = longComment f
            | _ => false) false
        .ok (psSetSection st sectionName (objSet sec k (.obj phaseObj2)))

/-- Association-list lookup for the Go map filePathToReference. -/
def assocLookup (m : List (String × String × String)) (k : String) :
    Option (String × String) :=
  match m.find? (fun kv => kv.1 = k) with
  | some kv => some kv.2
  | none => none

/-- Association-list store with Go map overwrite semantics. -/
def assocStore (m : List (String × String × String)) (k : String) (v : String × String) :
    List (String × String × String) :=
  match m with
  | [] => [(k, v)]
  | (k2, v2) :: rest => if k2 = k then (k2, v) :: rest else (k2, v2) :: assocStore rest k v

/-- AddPbxGroup's first loop (lines 541-558): over the file-reference
section's comment items, map each record's path to (record key, basename),
skipping empty basenames and paths. (Comment values are strings, as Go
asserts.) -/
def buildFilePathToReference (fileRefSec : Obj) : List (String × String × String) :=
  fileRefSec.foldl (fun acc kv =>
    if isCommentKey kv.1 then
      match kv.2 with
      | .s basename =>
          if basename = "" then acc
          else
            let fileReferenceKey := fromCommentKey kv.1
            let path := objGetString (objGetObject fileRefSec fileReferenceKey) "path"
            if path = "" then acc
            else assocStore acc path (fileReferenceKey, basename)
      | _ => acc
    else acc) []

/-- AddPbxGroup's second loop (lines 560-583): reuse a reference whose path
(or quoted path) is known; otherwise create a file with fresh Uuid and
FileRef, add it to the file-reference and build-file sections, and append a
child entry either way. -/
def addPbxGroupLoop (refMap : List (String × String × String)) :
    List String → ProjState → Obj → Except String (ProjState × Obj)
  | [], st, g => .ok (st, g)
  | fp :: rest, st, g =>
      match assocLookup refMap fp with
      | some (frKey, basename) => do
          let g2 ← addToObjectList g "children" (.obj (commentValueToObject frKey basename))
          addPbxGroupLoop refMap rest st g2
      | none =>
          match assocLookup refMap ("\"" ++ fp ++ "\"") with
          | some (frKey, basename) => do
              let g2 ← addToObjectList g "children"
                (.obj (commentValueToObject frKey basename))
              addPbxGroupLoop refMap rest st g2
          | none =>
              let f := newPbxFile fp newPbxFileOptions
              let (u1, st) := generateUuid st
              let f := { f with uuid := u1 }
              let (u2, st) := generateUuid st
              let f := { f with fileRef := u2 }
              let st := psAddToPbxFileReferenceSection st f
              let st := psAddToPbxBuildFileSection st f
              do
                let g2 ← addToObjectList g "children"
                  (.obj (commentValueToObject f.fileRef f.basename))
                addPbxGroupLoop refMap rest st g2

/-- AddPbxGroup (lines 524-589): mint the group uuid, build the group
record, resolve or create children, and store the record in
p.pbxGroupSection — only when that section is non-empty, which the
detached, always-empty group section never is, so built groups are dropped. -/
def psAddPbxGroup (st : ProjState) (filePathsArray : List String)
    (name path sourceTree : String) : Except String ProjState :=
  let (gUuid, st) := generateUuid st
  let pbxGroup := newObjectWithData
    [("isa", .s "PBXGroup"), ("children", .arr []),
     ("name", .s name), ("sourceTree", .s sourceTree)]
  let pbxGroup := if path ≠ "" then objSet pbxGroup "path" (.s path) else pbxGroup
  let pbxGroup := if sourceTree = "" then objSet pbxGroup "sourceTree" (.s "\"<group>\"")
    else pbxGroup
  let refMap := buildFilePathToReference (psGetSection st "PBXFileReference")
  do
    let (st, pbxGroup) ← addPbxGroupLoop refMap filePathsArray st pbxGroup
    if ¬ objIsEmpty st.groupSection then
      .ok { st with groupSection := (objSet (objSet st.groupSection gUuid (.obj pbxGroup))
          (toCommentKey gUuid) (.s name)) }
    else .ok st

/-- addToPbxGroup (lines 665-672): append the child to the named group, or
build the group through AddPbxGroup when pbxGroupByName finds none. -/
def psAddToPbxGroup (st : ProjState) (f : PbxFile) (groupName : String) :
    Except String ProjState :=
  if objIsEmpty (pbxGroupByName st groupName) then
    psAddPbxGroup st [f.path] groupName "" ""
  else
    match st.groupSection.find? (fun kv => isCommentKey kv.1 ∧ kv.2 = .s groupName) with
    | some (k, _) =>
        let gk := fromCommentKey k
        let g := objGetObject st.groupSection gk
        do
          let g2 ← addToObjectList g "children"
            (.obj (commentValueToObject (pbxGroupChild f).1 (pbxGroupChild f).2))
          .ok { st with groupSection := objSet st.groupSection gk (.obj g2) }
    | none => .ok st

/-- removeFromPbxGroup (lines 674-684): drop the first child whose value and
comment are the file's FileRef and basename from the named group. -/
def psRemoveFromPbxGroup (st : ProjState) (f : PbxFile) (groupName : String) :
    Except String ProjState :=
  match st.groupSection.find? (fun kv => isCommentKey kv.1 ∧ kv.2 = .s groupName) with
  | none => .ok st
  | some (k, _) =>
      let gk := fromCommentKey k
      let g := objGetObject st.groupSection gk
      if objIsEmpty g then .ok st
      else do
        let g2 ← removeFromObjectList g "children"
          (fun child =>
            match child with
            | .obj o => objGetString o "value" = f.fileRef ∧
                objGetString o "comment" = f.basename
            | _ => false) false
        .ok { st with groupSection := objSet st.groupSection gk (.obj g2) }

/-- addPluginFile (lines 182-193): build the plugin PbxFile, correct its
path, refuse a duplicate path (hasFile), then mint the FileRef and insert
into the file-reference section and the Plugins group. -/
def addPluginFile (st : ProjState) (filePath : String) (options : PbxFileOptions) :
    Except String (PbxFile × ProjState) :=
  let f := newPbxFile filePath options
  let f := { f with plugin := true }
  let f := correctForPluginsPath st f
  if hasFile st f.path then .error ("file already exist: " ++ f.path)
  else
    let (u, st) := generateUuid st
    let f := { f with fileRef := u }
    let st := psAddToPbxFileReferenceSection st f
    do
      let st ← psAddToPbxGroup st f "Plugins"
      .ok (f, st)

/-- removePluginFile (lines 201-208). -/
def removePluginFile (st : ProjState) (filePath : String) (options : PbxFileOptions) :
    Except String (PbxFile × ProjState) :=
  let f := newPbxFile filePath options
  let f := { f with plugin := true }
  let f := correctForPluginsPath st f
  let st := psRemoveFromPbxFileReferenceSection st f
  do
    let st ← psRemoveFromPbxGroup st f "Plugins"
    .ok (f, st)

/-- AddSourceFile called with the path only (lines 241-260): variadic params
parse to the zero options and the empty group, so the file goes through
addPluginFile, then gets its build-file uuid, the PBXBuildFile pair and the
Sources build-phase entry. -/
def addSourceFile (st : ProjState) (filePath : String) : Except String ProjState := do
  let (f, st) ← addPluginFile st filePath zeroPbxFileOptions
  let f := { f with target := zeroPbxFileOptions.target }
  let (u, st) := generateUuid st
  let f := { f with uuid := u }
  let st := psAddToPbxBuildFileSection st f
  psAddToPbxBuildPhase st "PBXSourcesBuildPhase" "Sources" f

/-- RemoveSourceFile called with the path only (lines 261-274). -/
def removeSourceFile (st : ProjState) (filePath : String) : Except String ProjState := do
  let (f, st) ← removePluginFile st filePath zeroPbxFileOptions
  let f := { f with target := zeroPbxFileOptions.target }
  let st := removeFromPbxBuildFileSection st f
  psRemoveFromPbxBuildPhase st "PBXSourcesBuildPhase" "Sources" f

/-- The objects mapping of a minimal loaded project: empty PBXBuildFile and
PBXFileReference buckets, and the XCVersionGroup / XCConfigurationList
buckets initSections materializes. -/
def objects0 : Obj :=
  [("PBXBuildFile", .obj []),
   ("PBXFileReference", .obj []),
   ("XCVersionGroup", .obj []),
   ("XCConfigurationList", .obj [])]

/-- The loaded state over objects0, with six fresh uuids in the supply. -/
def st0 : ProjState :=
  { objects := objects0, groupSection := [], fileNoCommentRefs := [],
    uuidSupply := ["AAAAAAAAAAAAAAAAAAAAAA01", "AAAAAAAAAAAAAAAAAAAAAA02",
      "AAAAAAAAAAAAAAAAAAAAAA03", "AAAAAAAAAAAAAAAAAAAAAA04",
      "AAAAAAAAAAAAAAAAAAAAAA05", "AAAAAAAAAAAAAAAAAAAAAA06"] }

deriving instance DecidableEq for Except

/-- The keys of a section after a run, for stating the claims compactly. -/
def runSectionKeys (e : Except String ProjState) (sec : String) :
    Except String (List String) :=
  e.map (fun st => (psGetSection st sec).map Prod.fst)

/-- C4: AddSourceFile("foo.m") then RemoveSourceFile("foo.m") does not
restore the pre-add tree. The remove leaves the whole PBXBuildFile pair
(record AAAAAAAAAAAAAAAAAAAAAA03 and its comment) in place, because
removeFromPbxBuildFileSection scans the group section — which is empty, and
whose records would not carry a FileRef_comment anyway — instead of the
build-file section; it also leaves the orphaned file-reference comment (the
C3 bug). The pre-add buckets were empty, and neither leftover is covered by
comment-pairing normalization or missing-bucket materialization: the
surviving PBXBuildFile record is a non-comment entry. -/
theorem c4_add_remove_not_symmetric :
    runSectionKeys ((addSourceFile st0 "foo.m").bind
        (fun st => removeSourceFile st "foo.m")) "PBXBuildFile" =
      .ok ["AAAAAAAAAAAAAAAAAAAAAA03", "AAAAAAAAAAAAAAAAAAAAAA03_comment"] ∧
    psGetSection st0 "PBXBuildFile" = [] ∧
    runSectionKeys ((addSourceFile st0 "foo.m").bind
        (fun st => removeSourceFile st "foo.m")) "PBXFileReference" =
      .ok ["AAAAAAAAAAAAAAAAAAAAAA01_comment"] ∧
    psGetSection st0 "PBXFileReference" = [] := by
  refine ⟨by decide, by decide, by decide, by decide⟩

/-- C5: the duplicate-addition check never fires. hasFile consults
pbxFileNoCommentReferences, a map no code ever populates, so the second
AddSourceFile("foo.m") also returns success (not AlreadyExists) and inserts
a second PBXFileReference pair (AAAAAAAAAAAAAAAAAAAAAA04) — the tree after
the second call differs from the tree after the first. -/
theorem c5_duplicate_add_succeeds_bug :
    runSectionKeys (addSourceFile st0 "foo.m") "PBXFileReference" =
      .ok ["AAAAAAAAAAAAAAAAAAAAAA01", "AAAAAAAAAAAAAAAAAAAAAA01_comment"] ∧
    runSectionKeys ((addSourceFile st0 "foo.m").bind
        (fun st => addSourceFile st "foo.m")) "PBXFileReference" =
      .ok ["AAAAAAAAAAAAAAAAAAAAAA01", "AAAAAAAAAAAAAAAAAAAAAA01_comment",
           "AAAAAAAAAAAAAAAAAAAAAA04", "AAAAAAAAAAAAAAAAAAAAAA04_comment"] ∧
    hasFile ((addSourceFile st0 "foo.m").toOption.getD st0) "foo.m" = false := by
  refine ⟨by decide, by decide, by decide⟩

/-
  addToSearchPaths (pbxProject.go lines 1095-1111) with the helpers it calls:
  productName (lines 1178-1189) and searchPathForFile (lines 1500-1521).
  The sentinel INHERITED is the Go string literal `"$(inherited)"`, quotes
  included.
-/

/-- Small facts about objSet used to track PRODUCT_NAME through mutations. -/
theorem objGet_objSet_self (o : Obj) (k : String) (v : PValue) :
    objGet (objSet o k v) k = some v := by
  induction o with
  | nil => simp [objSet, objGet]
  | cons kv rest ih =>
      by_cases h : kv.1 = k
      · simp [objSet, objGet, h]
      · simp [objSet, objGet, h, ih]

/-- objSet at another key leaves a lookup unchanged. -/
theorem objGet_objSet_ne (o : Obj) (k k2 : String) (v : PValue) (h : k ≠ k2) :
    objGet (objSet o k v) k2 = objGet o k2 := by
  induction o with
  | nil => simp [objSet, objGet, h]
  | cons kv rest ih =>
      by_cases hk : kv.1 = k
      · simp [objSet, objGet, hk, h, Ne.symm h, ih]
      · by_cases hk2 : kv.1 = k2
        · simp [objSet, objGet, hk, hk2, Ne.symm h]
        · simp [objSet, objGet, hk, hk2, ih]

/-- What one productName iteration consumes of an item: none models the
panic of the value.(Object) assertion, some none a skipped or empty-name
item, some (some pn) the break with the unquoted name. -/
def pnStep (kv : String × PValue) : Option (Option String) :=
  if isCommentKey kv.1 then some none
  else
    match kv.2 with
    | .obj record =>
        let pn := objGetString (objGetObject record "buildSettings") "PRODUCT_NAME"
        some (if pn = "" then none else some (unquoted pn))
    | _ => none

/-- productName: the unquoted PRODUCT_NAME of the first configuration that
has a non-empty one, "" when none does. -/
def productNameE : Obj → Except String String
  | [] => .ok ""
  | kv :: rest =>
      match pnStep kv with
      | none => .error "panic: interface conversion: interface is not an Object"
      | some none => productNameE rest
      | some (some pn) => .ok pn

/-- productName only looks at each item through pnStep. -/
theorem productNameE_append_congr (pre : Obj) (x y : String × PValue) (suf : Obj)
    (h : pnStep x = pnStep y) :
    productNameE (pre ++ x :: suf) = productNameE (pre ++ y :: suf) := by
  induction pre with
  | nil => simp only [List.nil_append, productNameE, h]
  | cons kv rest ih =>
      simp only [List.cons_append, productNameE, List.append_eq]
      rw [ih]

/-- pbxGroupByName's scan over a given group section. -/
def groupByNameIn (groupSec : Obj) (name : String) : Obj :=
  match groupSec.find? (fun kv => isCommentKey kv.1 ∧ kv.2 = .s name) with
  | some (k, _) => objGetObject groupSec (fromCommentKey k)
  | none => []

/-- searchPathForFile, with the product name passed in as the value
p.productName() has at the moment of the call: plugin files under the
Plugins group path, custom frameworks under their dirname, otherwise
"$(SRCROOT)/<productName><fileDir>" — each wrapped in literal escaped
quotes. -/
def searchPathForFile (groupSec : Obj) (pn : String) (f : PbxFile) : String :=
  let plugins := groupByNameIn groupSec "Plugins"
  let pluginsPath := if ¬ objIsEmpty plugins then objGetString plugins "path" else ""
  let fileDir0 := filepathDir f.path
  let fileDir := if fileDir0 = "." then "" else "/" ++ fileDir0
  if f.plugin ∧ pluginsPath ≠ "" then
    "\"\\\"$(SRCROOT)/" ++ unquoted pluginsPath ++ "\\\"\""
  else if f.customFramework ∧ f.dirname ≠ "" then
    "\"\\\"" ++ f.dirname ++ "\\\"\""
  else
    "\"\\\"$(SRCROOT)/" ++ pn ++ fileDir ++ "\\\"\""

/-- Write a mutated buildSettings object back into its configuration record:
the Go mutation happens through the alias GetObject returned, which is
attached exactly when the record holds an Object under "buildSettings". -/
def c6WriteBack (record : Obj) (bs : Obj) : Obj :=
  match objGet record "buildSettings" with
  | some (.obj _) => objSet record "buildSettings" (.obj bs)
  | _ => record

/-- One loop iteration of addToSearchPaths on a matching configuration,
under the shapes the amended claim assumes: promote a sentinel string value
to a one-element sequence, then append searchPathForFile's entry. -/
def c6UpdateRecord (groupSec : Obj) (sp : String) (f : PbxFile) (pn : String)
    (record : Obj) : Obj :=
  let bs := objGetObject record "buildSettings"
  let bs1 :=
    match objGet bs sp with
    | some (.s str) =>
        if str = "\"$(inherited)\"" then objSet bs sp (.arr [.s "\"$(inherited)\""]) else bs
    | _ => bs
  let record1 := c6WriteBack record bs1
  let entry := searchPathForFile groupSec pn f
  let bs2 :=
    match objGet bs1 sp with
    | none => objSet bs1 sp (.arr [.s entry])
    | some (.arr l) => objSet bs1 sp (.arr (l ++ [.s entry]))
    | some _ => bs1
  c6WriteBack record1 bs2

/-- What addToSearchPaths leaves of each item when no panic occurs: comment
items and non-matching configurations unchanged, matching configurations
updated. -/
def c6Transform (groupSec : Obj) (sp : String) (f : PbxFile) (pn : String)
    (kv : String × PValue) : String × PValue :=
  if isCommentKey kv.1 then kv
  else
    match kv.2 with
    | .obj record =>
        if unquoted (objGetString (objGetObject record "buildSettings") "PRODUCT_NAME") = pn
        then (kv.1, .obj (c6UpdateRecord groupSec sp f pn record))
        else kv
    | _ => kv

/-- addToSearchPaths' loop: acc holds the already-visited items reversed;
each non-comment configuration is gated on the product name computed from
the current, partially mutated section, the sentinel is promoted (written
back through the buildSettings alias), and the search-path entry appended
with addToObjectList. -/
def addToSearchPathsGo (groupSec : Obj) (sp : String) (f : PbxFile) :
    List (String × PValue) → List (String × PValue) → Except String Obj
  | acc, [] => .ok acc.reverse
  | acc, (k, v) :: rest =>
      if isCommentKey k then addToSearchPathsGo groupSec sp f ((k, v) :: acc) rest
      else
        match v with
        | .obj record => do
            let pn ← productNameE (acc.reverse ++ (k, .obj record) :: rest)
            let bs := objGetObject record "buildSettings"
            if unquoted (objGetString bs "PRODUCT_NAME") ≠ pn then
              addToSearchPathsGo groupSec sp f ((k, .obj record) :: acc) rest
            else
              let bs1 :=
                match objGet bs sp with
                | some (.s str) =>
                    if str = "\"$(inherited)\"" then
                      objSet bs sp (.arr [.s "\"$(inherited)\""])
                    else bs
                | _ => bs
              let record1 := c6WriteBack record bs1
              let pn1 ← productNameE (acc.reverse ++ (k, .obj record1) :: rest)
              let entry := searchPathForFile groupSec pn1 f
              let bs2 ← addToObjectList bs1 sp (.s entry)
              let record2 := c6WriteBack record1 bs2
              addToSearchPathsGo groupSec sp f ((k, .obj record2) :: acc) rest
        | _ => .error "panic: interface conversion: interface is not an Object"

/-- addToSearchPaths over the XCBuildConfiguration section. -/
def addToSearchPaths (groupSec : Obj) (sp : String) (f : PbxFile) (sec : Obj) :
    Except String Obj :=
  addToSearchPathsGo groupSec sp f [] sec

/-- The per-item shape the amended claim assumes, as a decidable check: every
non-comment value is a configuration record, and a matching record holds a
non-empty buildSettings mapping whose value at the key is absent, the
sentinel string, or a sequence. -/
def c6EntryCheck (sp pn : String) (kv : String × PValue) : Bool :=
  if isCommentKey kv.1 then true
  else
    match kv.2 with
    | .obj record =>
        if unquoted (objGetString (objGetObject record "buildSettings") "PRODUCT_NAME") = pn
        then
          match objGet record "buildSettings" with
          | some (.obj bsl) =>
              (!bsl.isEmpty) &&
                (match objGet bsl sp with
                | none => true
                | some (.s str) => str == "\"$(inherited)\""
                | some (.arr _) => true
                | some _ => false)
          | _ => false
        else true
    | _ => false

theorem objSet_ne_nil (o : Obj) (k : String) (v : PValue) : objSet o k v ≠ [] := by
  cases o with
  | nil => simp [objSet]
  | cons kv rest =>
      by_cases h : kv.1 = k <;> simp [objSet, h]

theorem except_bind_ok {a : Type} {b : Type} (x : a) (g : a → Except String b) :
    (Except.ok x >>= g) = g x := rfl

theorem c6_step_matching (groupSec : Obj) (sp : String) (f : PbxFile) (pn : String)
    (hsp : sp ≠ "PRODUCT_NAME") (record bsl : Obj) (k : String)
    (hc : ¬ isCommentKey k = true)
    (hbs : objGet record "buildSettings" = some (.obj bsl))
    (hne : bsl.isEmpty = false)
    (hshape : (match objGet bsl sp with
      | none => true
      | some (.s str) => str == "\"$(inherited)\""
      | some (.arr _) => true
      | some _ => false) = true)
    (hm : unquoted (objGetString (objGetObject record "buildSettings") "PRODUCT_NAME") = pn)
    (acc rest : List (String × PValue))
    (hPN : productNameE (acc.reverse ++ (k, .obj record) :: rest) = .ok pn) :
    addToSearchPathsGo groupSec sp f acc ((k, .obj record) :: rest) =
      addToSearchPathsGo groupSec sp f
        ((k, .obj (c6UpdateRecord groupSec sp f pn record)) :: acc) rest ∧
    productNameE (acc.reverse ++ (k, .obj (c6UpdateRecord groupSec sp f pn record)) :: rest) =
      .ok pn := by
  have hbsval : objGetObject record "buildSettings" = bsl := by
    simp [objGetObject, hbs]
  have hm2 : unquoted (objGetString bsl "PRODUCT_NAME") = pn := by
    rw [← hbsval]; exact hm
  cases hsp2 : objGet bsl sp with
  | none =>
      have hps1 : pnStep (k, PValue.obj (objSet record "buildSettings" (PValue.obj bsl))) =
          pnStep (k, PValue.obj record) := by
        simp [pnStep, objGetObject, objGet_objSet_self, hbs]
      have hPN1 : productNameE (acc.reverse ++
          (k, PValue.obj (objSet record "buildSettings" (PValue.obj bsl))) :: rest) =
          .ok pn := by
        rw [productNameE_append_congr _ _ _ _ hps1]; exact hPN
      have hupd : c6UpdateRecord groupSec sp f pn record =
          objSet (objSet record "buildSettings" (PValue.obj bsl)) "buildSettings"
            (PValue.obj (objSet bsl sp
              (PValue.arr [PValue.s (searchPathForFile groupSec pn f)]))) := by
        simp [c6UpdateRecord, hbsval, hsp2, c6WriteBack, hbs, objGet_objSet_self]
      constructor
      · rw [addToSearchPathsGo]
        simp only [hc, if_false, Bool.false_eq_true, hbsval, hsp2, hPN, except_bind_ok, hm,
          c6WriteBack, hbs, hPN1, addToObjectList, objIsEmpty, hne, objGet_objSet_self,
          hupd, ne_eq, not_true_eq_false, ite_false, Bool.false_eq_true, hm2]
      · have hget : objGet (objSet bsl sp
            (PValue.arr [PValue.s (searchPathForFile groupSec pn f)])) "PRODUCT_NAME" =
            objGet bsl "PRODUCT_NAME" := objGet_objSet_ne _ _ _ _ hsp
        have hps2 : pnStep (k, PValue.obj (c6UpdateRecord groupSec sp f pn record)) =
            pnStep (k, PValue.obj record) := by
          rw [hupd]
          simp [pnStep, objGetObject, objGet_objSet_self, objGetString, hget, hbs]
        rw [productNameE_append_congr acc.reverse _ _ rest hps2]
        exact hPN
  | some bv =>
      cases bv with
      | i n => rw [hsp2] at hshape; simp at hshape
      | dec d => rw [hsp2] at hshape; simp at hshape
      | obj o => rw [hsp2] at hshape; simp at hshape
      | s str =>
          have hstr : str = "\"$(inherited)\"" := by
            rw [hsp2] at hshape; simpa using hshape
          subst hstr
          have hget1 : objGet (objSet bsl sp
              (PValue.arr [PValue.s "\"$(inherited)\""])) "PRODUCT_NAME" =
              objGet bsl "PRODUCT_NAME" := objGet_objSet_ne _ _ _ _ hsp
          have hps1 : pnStep (k, PValue.obj (objSet record "buildSettings"
              (PValue.obj (objSet bsl sp (PValue.arr [PValue.s "\"$(inherited)\""]))))) =
              pnStep (k, PValue.obj record) := by
            simp [pnStep, objGetObject, objGet_objSet_self, objGetString, hget1, hbs]
          have hPN1 : productNameE (acc.reverse ++
              (k, PValue.obj (objSet record "buildSettings"
                (PValue.obj (objSet bsl sp
                  (PValue.arr [PValue.s "\"$(inherited)\""]))))) :: rest) =
              .ok pn := by
            rw [productNameE_append_congr _ _ _ _ hps1]; exact hPN
          have hupd : c6UpdateRecord groupSec sp f pn record =
              objSet (objSet record "buildSettings"
                  (PValue.obj (objSet bsl sp (PValue.arr [PValue.s "\"$(inherited)\""]))))
                "buildSettings"
                (PValue.obj (objSet (objSet bsl sp
                    (PValue.arr [PValue.s "\"$(inherited)\""])) sp
                  (PValue.arr ([PValue.s "\"$(inherited)\""] ++
                    [PValue.s (searchPathForFile groupSec pn f)])))) := by
            simp [c6UpdateRecord, hbsval, hsp2, c6WriteBack, hbs, objGet_objSet_self]
          constructor
          · rw [addToSearchPathsGo]
            simp only [hc, if_false, Bool.false_eq_true, hbsval, hsp2, hPN, except_bind_ok,
              hm, hm2, c6WriteBack, hbs, hPN1, addToObjectList, objIsEmpty, objGet_objSet_self,
              hupd, ne_eq, not_true_eq_false, ite_false, ite_true, if_true,
              objSet_ne_nil, List.isEmpty_eq_true]
          · have hget2 : objGet (objSet (objSet bsl sp
                (PValue.arr [PValue.s "\"$(inherited)\""])) sp
                  (PValue.arr [PValue.s "\"$(inherited)\"",
                    PValue.s (searchPathForFile groupSec pn f)])) "PRODUCT_NAME" =
                objGet bsl "PRODUCT_NAME" := by
              rw [objGet_objSet_ne _ _ _ _ hsp, objGet_objSet_ne _ _ _ _ hsp]
            have hps2 : pnStep (k, PValue.obj (c6UpdateRecord groupSec sp f pn record)) =
                pnStep (k, PValue.obj record) := by
              rw [hupd]
              simp [pnStep, objGetObject, objGet_objSet_self, objGetString, hget2, hbs]
            rw [productNameE_append_congr acc.reverse _ _ rest hps2]
            exact hPN
      | arr l =>
          have hget1 : objGet (objSet bsl sp
              (PValue.arr (l ++ [PValue.s (searchPathForFile groupSec pn f)])))
                "PRODUCT_NAME" = objGet bsl "PRODUCT_NAME" := objGet_objSet_ne _ _ _ _ hsp
          have hupd : c6UpdateRecord groupSec sp f pn record =
              objSet (objSet record "buildSettings" (PValue.obj bsl)) "buildSettings"
                (PValue.obj (objSet bsl sp
                  (PValue.arr (l ++ [PValue.s (searchPathForFile groupSec pn f)])))) := by
            simp [c6UpdateRecord, hbsval, hsp2, c6WriteBack, hbs, objGet_objSet_self]
          have hps1 : pnStep (k, PValue.obj (objSet record "buildSettings" (PValue.obj bsl))) =
              pnStep (k, PValue.obj record) := by
            simp [pnStep, objGetObject, objGet_objSet_self, hbs]
          have hPN1 : productNameE (acc.reverse ++
              (k, PValue.obj (objSet record "buildSettings" (PValue.obj bsl))) :: rest) =
              .ok pn := by
            rw [productNameE_append_congr _ _ _ _ hps1]; exact hPN
          constructor
          · rw [addToSearchPathsGo]
            simp only [hc, if_false, Bool.false_eq_true, hbsval, hsp2, hPN, except_bind_ok,
              hm, hm2, c6WriteBack, hbs, hPN1, addToObjectList, objIsEmpty, hne,
              objGet_objSet_self, hupd, ne_eq, not_true_eq_false, ite_false]
          · have hps2 : pnStep (k, PValue.obj (c6UpdateRecord groupSec sp f pn record)) =
                pnStep (k, PValue.obj record) := by
              rw [hupd]
              simp [pnStep, objGetObject, objGet_objSet_self, objGetString, hget1, hbs]
            rw [productNameE_append_congr acc.reverse _ _ rest hps2]
            exact hPN

theorem c6_go_spec (groupSec : Obj) (sp : String) (f : PbxFile) (pn : String)
    (hsp : sp ≠ "PRODUCT_NAME") :
    ∀ (rest acc : List (String × PValue)),
      (∀ kv ∈ rest, c6EntryCheck sp pn kv = true) →
      productNameE (acc.reverse ++ rest) = .ok pn →
      addToSearchPathsGo groupSec sp f acc rest =
        .ok (acc.reverse ++ rest.map (c6Transform groupSec sp f pn)) := by
  intro rest
  induction rest with
  | nil => intro acc _ _; simp [addToSearchPathsGo]
  | cons kv rest ih =>
      obtain ⟨k, v⟩ := kv
      intro acc hAll hPN
      have hAll' : ∀ kv ∈ rest, c6EntryCheck sp pn kv = true :=
        fun kv hkv => hAll kv (List.mem_cons_of_mem _ hkv)
      by_cases hc : isCommentKey k
      · have hPN' : productNameE (((k, v) :: acc).reverse ++ rest) = .ok pn := by
          simpa [List.reverse_cons, List.append_assoc] using hPN
        have hrec := ih ((k, v) :: acc) hAll' hPN'
        simp [addToSearchPathsGo, hc, hrec, c6Transform, List.reverse_cons,
          List.append_assoc]
      · have hck := hAll (k, v) (List.mem_cons_self _ _)
        cases v with
        | s str => simp [c6EntryCheck, hc] at hck
        | i n => simp [c6EntryCheck, hc] at hck
        | dec d => simp [c6EntryCheck, hc] at hck
        | arr l => simp [c6EntryCheck, hc] at hck
        | obj record =>
          by_cases hm : unquoted (objGetString (objGetObject record "buildSettings")
              "PRODUCT_NAME") = pn
          · simp only [c6EntryCheck, hc, if_false, hm, if_true, Bool.false_eq_true,
              ite_true, ite_false] at hck
            cases hbs : objGet record "buildSettings" with
            | none => rw [hbs] at hck; simp at hck
            | some bv =>
                cases bv with
                | s s2 => rw [hbs] at hck; simp at hck
                | i n => rw [hbs] at hck; simp at hck
                | dec d => rw [hbs] at hck; simp at hck
                | arr l => rw [hbs] at hck; simp at hck
                | obj bsl =>
                    rw [hbs] at hck
                    rw [Bool.and_eq_true] at hck
                    have hne : bsl.isEmpty = false := by simpa using hck.1
                    have hshape := hck.2
                    have step := c6_step_matching groupSec sp f pn hsp record bsl k hc
                      hbs hne hshape hm acc rest hPN
                    rw [step.1]
                    have hPN2 : productNameE
                        (((k, PValue.obj (c6UpdateRecord groupSec sp f pn record)) ::
                          acc).reverse ++ rest) = .ok pn := by
                      simpa [List.reverse_cons, List.append_assoc] using step.2
                    have hrec := ih ((k, PValue.obj (c6UpdateRecord groupSec sp f pn record))
                      :: acc) hAll' hPN2
                    rw [hrec]
                    simp [c6Transform, hc, hm, List.reverse_cons, List.append_assoc]
          · have hPN' : productNameE (((k, .obj record) :: acc).reverse ++ rest) = .ok pn := by
              simpa [List.reverse_cons, List.append_assoc] using hPN
            have hrec := ih ((k, .obj record) :: acc) hAll' hPN'
            simp [addToSearchPathsGo, hc, hPN, hm, hrec, c6Transform, List.reverse_cons,
              List.append_assoc, except_bind_ok]

/-- The file addToSearchPaths is called with in the C6 scenarios. -/
def c6File : PbxFile := newPbxFile "foo.m" zeroPbxFileOptions

/-- A configuration section with one matching configuration (sentinel
search-path value) and one non-matching one. -/
def c6GoodSection : Obj :=
  [("CFGAAAAAAAAAAAAAAAAAAAA1", .obj
     [("isa", .s "XCBuildConfiguration"),
      ("buildSettings", .obj
        [("PRODUCT_NAME", .s "\"App\""),
         ("FRAMEWORK_SEARCH_PATHS", .s "\"$(inherited)\"")]),
      ("name", .s "Debug")]),
   ("CFGAAAAAAAAAAAAAAAAAAAA1_comment", .s "Debug"),
   ("CFGAAAAAAAAAAAAAAAAAAAA2", .obj
     [("isa", .s "XCBuildConfiguration"),
      ("buildSettings", .obj [("PRODUCT_NAME", .s "\"Other\"")]),
      ("name", .s "Release")]),
   ("CFGAAAAAAAAAAAAAAAAAAAA2_comment", .s "Release")]

/-- A configuration section whose matching configuration holds a plain
(non-sentinel) string under the search-path key. -/
def c6BadSection : Obj :=
  [("CFGAAAAAAAAAAAAAAAAAAAA1", .obj
     [("isa", .s "XCBuildConfiguration"),
      ("buildSettings", .obj
        [("PRODUCT_NAME", .s "\"App\""),
         ("FRAMEWORK_SEARCH_PATHS", .s "\"$(SRCROOT)/x\"")]),
      ("name", .s "Debug")]),
   ("CFGAAAAAAAAAAAAAAAAAAAA1_comment", .s "Debug")]

/-- C6 (amended): for a search-path key (any key other than PRODUCT_NAME),
when every matching configuration holds a non-empty buildSettings mapping
whose value at the key is absent, the sentinel string "$(inherited)" or a
sequence, addToSearchPaths maps each configuration through c6Transform:
comment items and every configuration whose unquoted PRODUCT_NAME differs
from productName() are left completely unchanged, and each matching
configuration has the sentinel promoted to a one-element sequence and the
file's computed search-path entry appended. -/
theorem c6_search_path_gating (groupSec : Obj) (sp : String) (f : PbxFile) (sec : Obj)
    (pn : String) (hsp : sp ≠ "PRODUCT_NAME")
    (hpn : productNameE sec = .ok pn)
    (hwf : sec.all (c6EntryCheck sp pn) = true) :
    addToSearchPaths groupSec sp f sec = .ok (sec.map (c6Transform groupSec sp f pn)) ∧
    (∀ kv : String × PValue, isCommentKey kv.1 = true →
      c6Transform groupSec sp f pn kv = kv) ∧
    (∀ k2 record, ¬ isCommentKey k2 = true →
      unquoted (objGetString (objGetObject record "buildSettings") "PRODUCT_NAME") ≠ pn →
      c6Transform groupSec sp f pn (k2, .obj record) = (k2, .obj record)) := by
  refine ⟨?_, ?_, ?_⟩
  · have hAll : ∀ kv ∈ sec, c6EntryCheck sp pn kv = true := by
      intro kv hkv
      simp only [List.all_eq_true] at hwf
      exact hwf kv hkv
    exact c6_go_spec groupSec sp f pn hsp sec [] hAll (by simpa using hpn)
  · intro kv hk
    simp [c6Transform, hk]
  · intro k2 record hk hm
    simp [c6Transform, hk, hm]

/-- C6 counterexample: as stated the claim also promises the append for a
matching configuration whose current value at the key is a plain string
other than the sentinel — but there the Go code panics in addToObjectList's
list.([]interface convert) (modelled as the error), and no entry is
appended: c6BadSection's only configuration matches (productName is "App")
yet the call aborts instead of appending. -/
theorem c6_counterexample :
    productNameE c6BadSection = .ok "App" ∧
    unquoted (objGetString (objGetObject
      (objGetObject c6BadSection "CFGAAAAAAAAAAAAAAAAAAAA1") "buildSettings")
      "PRODUCT_NAME") = "App" ∧
    addToSearchPaths [] "FRAMEWORK_SEARCH_PATHS" c6File c6BadSection =
      .error "panic: interface conversion: interface is not a sequence" := by
  refine ⟨by decide, by decide, by decide⟩

/-- Witness for C6: the two-configuration section, with the concrete
promoted-and-appended sequence in the matching configuration. -/
theorem c6_search_path_gating_witness :
    addToSearchPaths [] "FRAMEWORK_SEARCH_PATHS" c6File c6GoodSection =
      .ok (c6GoodSection.map (c6Transform [] "FRAMEWORK_SEARCH_PATHS" c6File "App")) ∧
    objGet (objGetObject (objGetObject
        (c6GoodSection.map (c6Transform [] "FRAMEWORK_SEARCH_PATHS" c6File "App"))
        "CFGAAAAAAAAAAAAAAAAAAAA1") "buildSettings") "FRAMEWORK_SEARCH_PATHS" =
      some (.arr [.s "\"$(inherited)\"", .s "\"\\\"$(SRCROOT)/App\\\"\""]) :=
  ⟨(c6_search_path_gating [] "FRAMEWORK_SEARCH_PATHS" c6File c6GoodSection "App"
      (by decide) (by decide) (by decide)).1, by decide⟩

/-
  The grammar (pegparser/pbxproj.peg), embedded rule by rule as PEG
  recognizers over the character list: ordered choice tries alternatives in
  order and commits to the first success; repetition is greedy. The mutually
  recursive Value/Object/Array cluster carries a fuel parameter (Project is
  a finite grammar, so any fuel beyond the nesting depth parses the same).
  Action panics (the literal.(string) assertions of CommentedValue and
  CommentedArrayEntry) abort the Go parse; they are modelled as rule
  failures, which for the inputs considered makes the whole parse fail just
  as the abort does.
-/

/-- NewLine <- [\n\r]. -/
def pNewLine (s : List Char) : Option (Char × List Char) :=
  match s with
  | c :: rest => if c = '\n' ∨ c = '\r' then some (c, rest) else none
  | [] => none

/-- whitespace <- NewLine / [\t ]. -/
def isWhitespaceChar (c : Char) : Bool :=
  c = '\n' ∨ c = '\r' ∨ c = '\t' ∨ c = ' '

/-- The rule _ <- whitespace* (greedy, never fails). -/
def pWs (s : List Char) : List Char :=
  match s with
  | [] => []
  | c :: rest => if isWhitespaceChar c then pWs rest else c :: rest

/-- Match a literal token. -/
def pLit (lit : List Char) (s : List Char) : Option (List Char) :=
  if s.take lit.length = lit then some (s.drop lit.length) else none

/-- SingleLineComment <- "//" _ OneLineString NewLine, OneLineString the
chars before the newline. -/
def pSingleLineComment (s : List Char) : Option (String × List Char) :=
  match pLit ['/', '/'] s with
  | none => none
  | some s1 =>
      let s2 := pWs s1
      let content := s2.takeWhile (fun c => ¬ (c = '\n' ∨ c = '\r'))
      match pNewLine (s2.drop content.length) with
      | some (_, s4) => some (String.mk content, s4)
      | none => none

/-- InlineComment <- "/*" [^*]+ "*/". -/
def pInlineComment (s : List Char) : Option (String × List Char) :=
  match pLit ['/', '*'] s with
  | none => none
  | some s1 =>
      let body := s1.takeWhile (· ≠ '*')
      if body.isEmpty then none
      else
        match pLit ['*', '/'] (s1.drop body.length) with
        | some s2 => some (String.mk body, s2)
        | none => none

/-- IdentifierDigit <- [A-Za-z0-9_.]+. -/
def isIdentChar (c : Char) : Bool :=
  c.isAlpha ∨ c.isDigit ∨ c = '_' ∨ c = '.'

/-- IdentifierDigit. -/
def pIdentifierDigit (s : List Char) : Option (String × List Char) :=
  let ids := s.takeWhile isIdentChar
  if ids.isEmpty then none else some (String.mk ids, s.drop ids.length)

/-- QuotedBody <- NonQuote+, NonQuote <- EscapedQuote / !DoubleQuote char;
the escaped quote stays as the two characters backslash-quote. Returns the
body and what follows (stops at an unescaped quote or the end). -/
def pQuotedBodyGo : List Char → (List Char × List Char)
  | [] => ([], [])
  | '\\' :: '"' :: rest =>
      let (b, r) := pQuotedBodyGo rest
      ('\\' :: '"' :: b, r)
  | c :: rest =>
      if c = '"' then ([], c :: rest)
      else
        let (b, r) := pQuotedBodyGo rest
        (c :: b, r)

/-- QuotedString <- '"' QuotedBody '"', keeping the outer quotes in the
result. -/
def pQuotedString (s : List Char) : Option (String × List Char) :=
  match s with
  | '"' :: rest =>
      let (b, r) := pQuotedBodyGo rest
      if b.isEmpty then none
      else
        match r with
        | '"' :: r2 => some (String.mk ('"' :: (b ++ ['"'])), r2)
        | _ => none
  | _ => none

/-- Identifier <- IdentifierDigit / QuotedString. -/
def pIdentifier (s : List Char) : Option (String × List Char) :=
  match pIdentifierDigit s with
  | some r => some r
  | none => pQuotedString s

/-- The maximal run of LiteralChar: not an inline-comment opener, not ';'
',' or a newline. -/
def pLiteralChars : List Char → List Char
  | [] => []
  | '/' :: '*' :: _ => []
  | c :: rest =>
      if c = ';' ∨ c = ',' ∨ c = '\n' ∨ c = '\r' then []
      else c :: pLiteralChars rest

/-- LiteralString <- LiteralChar+. -/
def pLiteralString (s : List Char) : Option (String × List Char) :=
  let l := pLiteralChars s
  if l.isEmpty then none else some (String.mk l, s.drop l.length)

/-- IntegerValue <- !Alpha Digit+ !NonTerminator, parsed with bitSize 32.
An out-of-range literal makes strconv return an error, which fails the Go
parse; modelled as failure here. -/
def pIntegerValue (s : List Char) : Option (Int × List Char) :=
  match s with
  | [] => none
  | c :: _ =>
      if c.isAlpha then none
      else
        let ds := s.takeWhile Char.isDigit
        if ds.isEmpty then none
        else
          let rest := s.drop ds.length
          let okEnd :=
            match rest with
            | [] => true
            | c2 :: _ => c2 = ';' ∨ c2 = ',' ∨ c2 = '\n'
          if okEnd then
            let n := ds.foldl (fun acc c2 => acc * 10 + (c2.toNat - 48)) (0 : Nat)
            if n < 2147483648 then some ((n : Int), rest) else none
          else none

/-- DecimalValue <- IntegerValue "." IntegerValue: the inner IntegerValue
requires a terminator after its digits, so a dot can never follow a
successful match and this rule never succeeds. -/
def pDecimalValue (s : List Char) : Option (PValue × List Char) :=
  match pIntegerValue s with
  | some (_, rest) =>
      match rest with
      | '.' :: _ => none
      | _ => none
  | none => none

/-- NumberValue <- DecimalValue / IntegerValue. -/
def pNumberValue (s : List Char) : Option (PValue × List Char) :=
  match pDecimalValue s with
  | some r => some r
  | none => (pIntegerValue s).map (fun nr => (PValue.i nr.1, nr.2))

/-- StringValue <- QuotedString / LiteralString. -/
def pStringValue (s : List Char) : Option (String × List Char) :=
  match pQuotedString s with
  | some r => some r
  | none => pLiteralString s

/-- strings.TrimSpace over the ASCII whitespace this format contains. -/
def trimSpace (s : String) : String :=
  String.mk (((s.data.dropWhile isWhitespaceChar).reverse.dropWhile isWhitespaceChar).reverse)

/-- CommentedIdentifier's action: {id, <id>_comment ↦ trimmed label}. -/
def commentedIdentifierAction (id label : String) : Obj :=
  objSet (objSet [] "id" (.s id)) (id ++ "_comment") (.s (trimSpace label))

/-- CommentedAssignment1's action: the two entries K ↦ V then
K_comment ↦ the trimmed label carried by the CommentedIdentifier object. -/
def commentedAssignment1Action (commentedId : Obj) (val : PValue) : Obj :=
  let commentKey := objGetString commentedId "id" ++ "_comment"
  objSet (objSet [] (objGetString commentedId "id") val) commentKey
    ((objGet commentedId commentKey).getD (.s ""))

/-- CommentedValue's action: Go asserts literal.(string) — a non-string
Value panics (none); otherwise {comment ↦ trim(label), value ↦ trim(V)}, in
that Set order. -/
def commentedValueAction (literal : PValue) (comment : String) : Option Obj :=
  match literal with
  | .s str =>
      some (objSet (objSet [] "comment" (.s (trimSpace comment))) "value" (.s (trimSpace str)))
  | _ => none

/-- CommentedAssignment2's action: K ↦ the CommentedValue's value, then
K_comment ↦ its comment. -/
def commentedAssignment2Action (id : String) (commentedVal : Obj) : Obj :=
  objSet (objSet [] id ((objGet commentedVal "value").getD (.s "")))
    (id ++ "_comment") ((objGet commentedVal "comment").getD (.s ""))

/-- DelimitedSectionBegin <- "/* Begin " Identifier " section */" NewLine. -/
def pDelimitedSectionBegin (s : List Char) : Option (String × List Char) :=
  match pLit "/* Begin ".data s with
  | none => none
  | some s1 =>
      match pIdentifier s1 with
      | none => none
      | some (name, s2) =>
          match pLit " section */".data s2 with
          | none => none
          | some s3 =>
              match pNewLine s3 with
              | some (_, s4) => some (name, s4)
              | none => none

/-- DelimitedSectionEnd <- "/* End " Identifier " section */" NewLine. -/
def pDelimitedSectionEnd (s : List Char) : Option (String × List Char) :=
  match pLit "/* End ".data s with
  | none => none
  | some s1 =>
      match pIdentifier s1 with
      | none => none
      | some (name, s2) =>
          match pLit " section */".data s2 with
          | none => none
          | some s3 =>
              match pNewLine s3 with
              | some (_, s4) => some (name, s4)
              | none => none

/-- EndArrayEntry <- "," / _ &")" (the lookahead consumes only _). -/
def pEndArrayEntry (s : List Char) : Option (List Char) :=
  match s with
  | ',' :: r => some r
  | _ =>
      let r := pWs s
      match r with
      | ')' :: _ => some r
      | _ => none

mutual

/-- Value <- Object / Array / NumberValue / StringValue. -/
def pValue : Nat → List Char → Option (PValue × List Char)
  | 0, _ => none
  | fuel + 1, s =>
      match pObject fuel s with
      | some (o, r) => some (.obj o, r)
      | none =>
          match pArray fuel s with
          | some (a, r) => some (.arr a, r)
          | none =>
              match pNumberValue s with
              | some r => some r
              | none => (pStringValue s).map (fun sr => (PValue.s sr.1, sr.2))

/-- Object <- "{" (AssignmentList / EmptyBody) "}"; EmptyBody <- _ yields a
fresh empty object. -/
def pObject : Nat → List Char → Option (Obj × List Char)
  | 0, _ => none
  | fuel + 1, s =>
      match s with
      | '\x7b' :: s1 =>
          (match pAssignmentList fuel s1 with
          | some (o, r) =>
              (match r with
              | '\x7d' :: r2 => some (o, r2)
              | _ => none)
          | none =>
              let r := pWs s1
              (match r with
              | '\x7d' :: r2 => some (([] : Obj), r2)
              | _ => none))
      | _ => none

/-- AssignmentList <- _ ((Assignment / DelimitedSection) _)+ with the
left-biased ordered merge of the per-assignment objects. -/
def pAssignmentList : Nat → List Char → Option (Obj × List Char)
  | 0, _ => none
  | fuel + 1, s =>
      let s1 := pWs s
      match pAssignmentItems fuel s1 with
      | some (o :: os, r) => some ((o :: os).foldl merge_obj o, r)
      | _ => none

/-- The one-or-more loop of AssignmentList. -/
def pAssignmentItems : Nat → List Char → Option (List Obj × List Char)
  | 0, _ => none
  | fuel + 1, s =>
      match pAssignmentItem fuel s with
      | none => none
      | some (o, r) =>
          let r1 := pWs r
          match pAssignmentItems fuel r1 with
          | some (os, r2) => some (o :: os, r2)
          | none => some ([o], r1)

/-- Assignment / DelimitedSection. -/
def pAssignmentItem : Nat → List Char → Option (Obj × List Char)
  | 0, _ => none
  | fuel + 1, s =>
      match pAssignment fuel s with
      | some r => some r
      | none => pDelimitedSection fuel s

/-- Assignment <- SimpleAssignment / CommentedAssignment. -/
def pAssignment : Nat → List Char → Option (Obj × List Char)
  | 0, _ => none
  | fuel + 1, s =>
      match pSimpleAssignment fuel s with
      | some r => some r
      | none =>
          match pCommentedAssignment1 fuel s with
          | some r => some r
          | none => pCommentedAssignment2 fuel s

/-- SimpleAssignment <- Identifier _ "=" _ Value ";". -/
def pSimpleAssignment : Nat → List Char → Option (Obj × List Char)
  | 0, _ => none
  | fuel + 1, s =>
      match pIdentifier s with
      | none => none
      | some (id, r1) =>
          (match pWs r1 with
          | '=' :: r3 =>
              (match pValue fuel (pWs r3) with
              | some (v, r5) =>
                  (match r5 with
                  | ';' :: r6 => some (objSet [] id v, r6)
                  | _ => none)
              | none => none)
          | _ => none)

/-- CommentedAssignment1 <- CommentedIdentifier _ "=" _ Value ";". -/
def pCommentedAssignment1 : Nat → List Char → Option (Obj × List Char)
  | 0, _ => none
  | fuel + 1, s =>
      match pIdentifier s with
      | none => none
      | some (id, r1) =>
          (match pInlineComment (pWs r1) with
          | none => none
          | some (cmt, r2) =>
              let cid := commentedIdentifierAction id cmt
              (match pWs r2 with
              | '=' :: r3 =>
                  (match pValue fuel (pWs r3) with
                  | some (v, r5) =>
                      (match r5 with
                      | ';' :: r6 => some (commentedAssignment1Action cid v, r6)
                      | _ => none)
                  | none => none)
              | _ => none))

/-- CommentedAssignment2 <- Identifier _ "=" _ CommentedValue ";". -/
def pCommentedAssignment2 : Nat → List Char → Option (Obj × List Char)
  | 0, _ => none
  | fuel + 1, s =>
      match pIdentifier s with
      | none => none
      | some (id, r1) =>
          (match pWs r1 with
          | '=' :: r3 =>
              (match pCommentedValue fuel (pWs r3) with
              | some (cv, r5) =>
                  (match r5 with
                  | ';' :: r6 => some (commentedAssignment2Action id cv, r6)
                  | _ => none)
              | none => none)
          | _ => none)

/-- CommentedValue <- Value _ InlineComment, with the action's string
assertion. -/
def pCommentedValue : Nat → List Char → Option (Obj × List Char)
  | 0, _ => none
  | fuel + 1, s =>
      match pValue fuel s with
      | none => none
      | some (v, r1) =>
          (match pInlineComment (pWs r1) with
          | some (cmt, r3) =>
              (match commentedValueAction v cmt with
              | some o => some (o, r3)
              | none => none)
          | none => none)

/-- DelimitedSection <- Begin _ (AssignmentList / EmptyBody) _ End; the
section becomes one entry name ↦ body (the grammar does not compare the two
names). -/
def pDelimitedSection : Nat → List Char → Option (Obj × List Char)
  | 0, _ => none
  | fuel + 1, s =>
      match pDelimitedSectionBegin s with
      | none => none
      | some (name, r1) =>
          let r2 := pWs r1
          let fieldsR :=
            match pAssignmentList fuel r2 with
            | some (o, r) => (o, r)
            | none => (([] : Obj), pWs r2)
          match pDelimitedSectionEnd (pWs fieldsR.2) with
          | some (_, r5) => some (objSet [] name (.obj fieldsR.1), r5)
          | none => none

/-- Array <- "(" (ArrayBody / EmptyArray) ")". -/
def pArray : Nat → List Char → Option (List PValue × List Char)
  | 0, _ => none
  | fuel + 1, s =>
      match s with
      | '(' :: s1 =>
          (match pArrayBody fuel s1 with
          | some (arr, r) =>
              (match r with
              | ')' :: r2 => some (arr, r2)
              | _ => none)
          | none =>
              let r := pWs s1
              (match r with
              | ')' :: r2 => some (([] : List PValue), r2)
              | _ => none))
      | _ => none

/-- ArrayBody <- _ ArrayEntry _ ArrayBody? _. -/
def pArrayBody : Nat → List Char → Option (List PValue × List Char)
  | 0, _ => none
  | fuel + 1, s =>
      match pArrayEntry fuel (pWs s) with
      | none => none
      | some (h, r1) =>
          let r2 := pWs r1
          match pArrayBody fuel r2 with
          | some (t, r3) => some (h :: t, pWs r3)
          | none => some ([h], pWs r2)

/-- ArrayEntry <- SimpleArrayEntry / CommentedArrayEntry (both start with
Value; the second is retried from the start when the first's EndArrayEntry
fails). -/
def pArrayEntry : Nat → List Char → Option (PValue × List Char)
  | 0, _ => none
  | fuel + 1, s =>
      match
        (match pValue fuel s with
        | some (v, r1) =>
            (match pEndArrayEntry r1 with
            | some r2 => some ((v, r2))
            | none => none)
        | none => none) with
      | some r => some r
      | none =>
          match pValue fuel s with
          | some (v, r1) =>
              (match pInlineComment (pWs r1) with
              | some (cmt, r3) =>
                  (match pEndArrayEntry r3 with
                  | some r4 =>
                      (match v with
                      | .s str =>
                          some (.obj (objSet (objSet [] "value" (.s (trimSpace str)))
                            "comment" (.s (trimSpace cmt))), r4)
                      | _ => none)
                  | none => none)
              | none => none)
          | none => none

end

/-- Project <- SingleLineComment? InlineComment? _ Object NewLine _; the
action sets "project" first and "headComment" (when present) second. -/
def pProject (fuel : Nat) (s : List Char) : Option (Obj × List Char) :=
  let hs :=
    match pSingleLineComment s with
    | some (c, r) => (some c, r)
    | none => (none, s)
  let s2 :=
    match pInlineComment hs.2 with
    | some (_, r) => r
    | none => hs.2
  match pObject fuel (pWs s2) with
  | none => none
  | some (o, r1) =>
      match pNewLine r1 with
      | none => none
      | some (_, r2) =>
          let proj := objSet [] "project" (.obj o)
          let proj :=
            match hs.1 with
            | some c => objSet proj "headComment" (.s c)
            | none => proj
          some (proj, pWs r2)

/-- ParseReader: the Project rule applied at the start of the text (pigeon
does not anchor at the end of input). -/
def pbxParse (s : String) (fuel : Nat) : Option Obj :=
  (pProject fuel s.data).map Prod.fst

/-
  The canonical serializer (pbxproj/pbxWriter.go), with the default options
  of NewPbxWriter: omitEmptyValues = false. Writing is pure string
  concatenation here; the file write at the end of Write() is out of scope.
  The one panic the writer can hit — interfaceToStringSlice's element
  assertion on a sequence with non-string entries inside an inline object —
  is the error case. Decimal values fall into the writers' unknown-type
  branches, which print a diagnostic to stdout and emit nothing.
-/

/-- The writers' hard-tab indentation. -/
def writeIndent (n : Nat) : String :=
  String.mk (List.replicate n '\t')

/-- toIntString: strconv.FormatInt base 10. -/
def toIntString (n : Int) : String :=
  toString n

/-- interfaceToStringSlice on a parsed sequence, for the inline writer: each
element must be a string (Go panics otherwise). -/
def seqToStrings : List PValue → Except String (List String)
  | [] => .ok []
  | .s str :: rest => (seqToStrings rest).map (fun l => str :: l)
  | _ :: _ => .error "panic: interface conversion: interface is not a string"

/-- strings.Join. -/
def joinStrings (sep : String) : List String → String
  | [] => ""
  | [x] => x
  | x :: rest => x ++ sep ++ joinStrings sep rest

mutual

/-- writeObject's loop (pbxWriter.go lines 163-196): non-comment items in
order, each with its comment twin looked up in the same object. -/
def writeObjectItems : Nat → Nat → Obj → Obj → Except String String
  | 0, _, _, _ => .error "out of fuel"
  | _ + 1, _, _, [] => .ok ""
  | fuel + 1, ind, fullObj, (k, v) :: rest =>
      if isCommentKey k then writeObjectItems fuel ind fullObj rest
      else do
        let cmt := objGetString fullObj (toCommentKey k)
        let piece ←
          match v with
          | .arr l => writeArrayF fuel ind l k
          | .obj o2 => do
              let inner ← writeObjectItems fuel (ind + 1) o2 o2
              pure (writeIndent ind ++ k ++ " = \x7b\n" ++ inner ++
                writeIndent ind ++ "\x7d;\n")
          | .s str =>
              pure (if cmt ≠ "" then
                  writeIndent ind ++ k ++ " = " ++ str ++ " /* " ++ cmt ++ " */;\n"
                else writeIndent ind ++ k ++ " = " ++ str ++ ";\n")
          | .i n =>
              pure (if cmt ≠ "" then
                  writeIndent ind ++ k ++ " = " ++ toIntString n ++ " /* " ++ cmt ++ " */;\n"
                else writeIndent ind ++ k ++ " = " ++ toIntString n ++ ";\n")
          | .dec _ => pure ""
        let restStr ← writeObjectItems fuel ind fullObj rest
        pure (piece ++ restStr)

/-- writeArray (lines 214-247): entries one per line; {value, comment} pairs
inline, other objects in block form, scalars bare. -/
def writeArrayF : Nat → Nat → List PValue → String → Except String String
  | 0, _, _, _ => .error "out of fuel"
  | fuel + 1, ind, arr, name => do
      let entries ← writeArrayEntries fuel (ind + 1) arr
      pure (writeIndent ind ++ name ++ " = (\n" ++ entries ++ writeIndent ind ++ ");\n")

/-- writeArray's entry loop. -/
def writeArrayEntries : Nat → Nat → List PValue → Except String String
  | 0, _, _ => .error "out of fuel"
  | _ + 1, _, [] => .ok ""
  | fuel + 1, ind, v :: rest => do
      let piece ←
        match v with
        | .obj o =>
            let value := objGetString o "value"
            let comment := objGetString o "comment"
            if value ≠ "" ∧ comment ≠ "" then
              pure (writeIndent ind ++ value ++ " /* " ++ comment ++ " */,\n")
            else do
              let inner ← writeObjectItems fuel (ind + 1) o o
              pure (writeIndent ind ++ "\x7b\n" ++ inner ++ writeIndent ind ++ "\x7d,\n")
        | .s str => pure (writeIndent ind ++ str ++ ",\n")
        | .i n => pure (writeIndent ind ++ toIntString n ++ ",\n")
        | .arr _ => pure ""
        | .dec _ => pure ""
      let restStr ← writeArrayEntries fuel ind rest
      pure (piece ++ restStr)

/-- writeObjectsSections (lines 198-212): one delimited section per
non-empty object bucket, the comments written with no indent. -/
def writeObjectsSectionsF : Nat → Nat → Obj → Except String String
  | 0, _, _ => .error "out of fuel"
  | _ + 1, _, [] => .ok ""
  | fuel + 1, ind, (k, v) :: rest => do
      let piece ←
        match v with
        | .obj o =>
            if objIsEmpty o then pure ""
            else do
              let inner ← writeSectionF fuel ind o
              pure ("\n/* Begin " ++ k ++ " section */\n" ++ inner ++
                "/* End " ++ k ++ " section */\n")
        | _ => pure ""
      let restStr ← writeObjectsSectionsF fuel ind rest
      pure (piece ++ restStr)

/-- writeSection (lines 257-281): PBXBuildFile and PBXFileReference records
inline, the rest in block form. -/
def writeSectionF : Nat → Nat → Obj → Except String String
  | 0, _, _ => .error "out of fuel"
  | _ + 1, _, [] => .ok ""
  | fuel + 1, ind, (k, v) :: rest =>
      writeSectionItem fuel ind (k, v) rest

/-- One writeSection item (split for the termination checker): the section's
comment twin is looked up in the remaining items only matters not — Go looks
it up in the whole section object, which the caller passes alongside. -/
def writeSectionItem : Nat → Nat → (String × PValue) → Obj → Except String String
  | 0, _, _, _ => .error "out of fuel"
  | fuel + 1, ind, (k, v), rest => do
      let piece ←
        if isCommentKey k then pure ""
        else
          match v with
          | .obj o =>
              let isa := objGetString o "isa"
              if isa = "PBXBuildFile" ∨ isa = "PBXFileReference" then do
                let pieces ← writeInlineObjectHelpF fuel k "" o
                pure (writeIndent ind ++ trimSpace (joinStrings "" pieces) ++ "\n")
              else do
                let inner ← writeObjectItems fuel (ind + 1) o o
                pure (writeIndent ind ++ k ++ " = \x7b\n" ++ inner ++
                  writeIndent ind ++ "\x7d;\n")
          | _ => pure ""
      let restStr ← writeSectionF fuel ind rest
      pure (piece ++ restStr)

/-- writeInlineObjectHelp (lines 283-324): the flat piece list of an inline
record. -/
def writeInlineObjectHelpF : Nat → String → String → Obj → Except String (List String)
  | 0, _, _, _ => .error "out of fuel"
  | fuel + 1, name, desc, ref => do
      let start :=
        if desc ≠ "" then name ++ " /* " ++ desc ++ " */ = \x7b"
        else name ++ " = \x7b"
      let fields ← writeInlineFields fuel ref ref
      pure ((start :: fields) ++ ["\x7d;"])

/-- The field loop of writeInlineObjectHelp. -/
def writeInlineFields : Nat → Obj → Obj → Except String (List String)
  | 0, _, _ => .error "out of fuel"
  | _ + 1, _, [] => .ok []
  | fuel + 1, fullObj, (k, v) :: rest => do
      let pieces ←
        if isCommentKey k then pure ([] : List String)
        else
          let cmt := objGetString fullObj (toCommentKey k)
          match v with
          | .arr l => do
              let strs ← seqToStrings l
              pure [k ++ " = (", joinStrings "," strs, "),"]
          | .obj o => writeInlineObjectHelpF fuel k cmt o
          | .s str =>
              pure (if cmt ≠ "" then [k ++ " = " ++ str ++ " /* " ++ cmt ++ " */; "]
                else [k ++ " = " ++ str ++ "; "])
          | .i n =>
              pure (if cmt ≠ "" then [k ++ " = " ++ toIntString n ++ " /* " ++ cmt ++ " */; "]
                else [k ++ " = " ++ toIntString n ++ "; "])
          | .dec _ => pure []
      let restPieces ← writeInlineFields fuel fullObj rest
      pure (pieces ++ restPieces)

end

/-- writeProject's body loop (lines 114-161): like writeObject, except the
"objects" mapping is rendered as delimited sections. -/
def writeProjectItems : Nat → Nat → Obj → Obj → Except String String
  | 0, _, _, _ => .error "out of fuel"
  | _ + 1, _, _, [] => .ok ""
  | fuel + 1, ind, fullObj, (k, v) :: rest =>
      if isCommentKey k then writeProjectItems fuel ind fullObj rest
      else do
        let cmt := objGetString fullObj (toCommentKey k)
        let piece ←
          match v with
          | .arr l => writeArrayF fuel ind l k
          | .obj o2 => do
              let inner ←
                if k = "objects" then writeObjectsSectionsF fuel (ind + 1) o2
                else writeObjectItems fuel (ind + 1) o2 o2
              pure (writeIndent ind ++ k ++ " = \x7b\n" ++ inner ++
                writeIndent ind ++ "\x7d;\n")
          | .s str =>
              pure (if cmt ≠ "" then
                  writeIndent ind ++ k ++ " = " ++ str ++ " /* " ++ cmt ++ " */;\n"
                else writeIndent ind ++ k ++ " = " ++ str ++ ";\n")
          | .i n =>
              pure (if cmt ≠ "" then
                  writeIndent ind ++ k ++ " = " ++ toIntString n ++ " /* " ++ cmt ++ " */;\n"
                else writeIndent ind ++ k ++ " = " ++ toIntString n ++ ";\n")
          | .dec _ => pure ""
        let restStr ← writeProjectItems fuel ind fullObj rest
        pure (piece ++ restStr)

/-- Write (lines 101-161, without the file output): the optional head
comment, then the project mapping between braces. -/
def pbxWrite (fuel : Nat) (contents : Obj) : Except String String := do
  let c := objGetString contents "headComment"
  let head := if c ≠ "" then "// " ++ c ++ "\n" else ""
  let proj := objGetObject contents "project"
  let body ← writeProjectItems fuel 1 proj proj
  pure (head ++ "\x7b\n" ++ body ++ "\x7d\n")

/-
  Round-trip fixtures: the minimal project file named by the round-trip
  claim, its parse tree, and the text the serializer produces for that tree.
-/

def minimalPbx : String := "// !$*UTF8*$!\n\x7b archiveVersion = 1; objects = \x7b \x7d; rootObject = AAAAAAAAAAAAAAAAAAAAAAAA; \x7d\n"

def minimalTree : Obj :=
  [("project", .obj [("archiveVersion", .i 1), ("objects", .obj []),
     ("rootObject", .s "AAAAAAAAAAAAAAAAAAAAAAAA")]),
   ("headComment", .s "!$*UTF8*$!")]

def canonicalPbx : String :=
  "// !$*UTF8*$!\n\x7b\n\tarchiveVersion = 1;\n\tobjects = \x7b\n\t\x7d;\n\trootObject = AAAAAAAAAAAAAAAAAAAAAAAA;\n\x7d\n"

/-- A key never equals itself with "_comment" appended (lengths differ). -/
theorem append_comment_ne (id : String) : id ++ "_comment" ≠ id := by
  intro h
  have hl := congrArg String.length h
  rw [String.length_append] at hl
  have h8 : ("_comment" : String).length = 8 := rfl
  omega

/-- The literal key "id" of the CommentedIdentifier object never collides
with the comment key it also carries. -/
theorem append_comment_ne_lit (id : String) : ("id" : String) ≠ id ++ "_comment" := by
  intro h
  have hl := congrArg String.length h
  rw [String.length_append] at hl
  have h8 : ("_comment" : String).length = 8 := rfl
  have h2 : ("id" : String).length = 2 := rfl
  omega

/-- The CommentedAssignment1 (CommentedKey) actions, composed: two entries
in order, K ↦ V then K_comment ↦ trimmed label, for every Value V. -/
theorem commentedKey_entries_eq (id label : String) (v : PValue) :
    commentedAssignment1Action (commentedIdentifierAction id label) v =
      [(id, v), (id ++ "_comment", .s (trimSpace label))] := by
  have h1 := append_comment_ne_lit id
  have h2 := append_comment_ne id
  simp [commentedAssignment1Action, commentedIdentifierAction, objSet, objGet,
    objGetString, h1, h2, Ne.symm h2]

/-- The CommentedAssignment2 (CommentedValue) actions, composed, on a string
Value: two entries in order, K ↦ trimmed V then K_comment ↦ trimmed label —
the value is trimmed too, and a non-string V never reaches this point. -/
theorem commentedValue_entries_eq (id str label : String) :
    (commentedValueAction (.s str) label).map (commentedAssignment2Action id) =
      some [(id, .s (trimSpace str)), (id ++ "_comment", .s (trimSpace label))] := by
  have h2 := append_comment_ne id
  simp [commentedValueAction, commentedAssignment2Action, objSet, objGet, h2, Ne.symm h2]

/-- C1: round-trip, as the code has it. Parsing the claim's minimal file
succeeds; serializing the resulting tree yields the canonical layout
(one item per line, hard tabs), not the input bytes; that canonical text
re-parses to the very same tree, so parse∘serialize∘parse = parse holds
there and on the serializer's own output the round-trip is exact
byte-for-byte — but the minimal file itself is not reproduced. -/
theorem c1_round_trip_normalizes :
    pbxParse minimalPbx 100 = some minimalTree ∧
    pbxWrite 100 minimalTree = .ok canonicalPbx ∧
    pbxParse canonicalPbx 100 = some minimalTree ∧
    canonicalPbx ≠ minimalPbx :=
  ⟨by decide, by decide, by decide, by decide⟩

/-- C1 counterexample: on the claim's own instance, serialize(parse(s))
differs from s — the serializer does not reproduce the single-line layout. -/
theorem c1_byte_identity_counterexample :
    pbxParse minimalPbx 100 = some minimalTree ∧
    pbxWrite 100 minimalTree ≠ .ok minimalPbx :=
  ⟨by decide, by decide⟩

/-- C7: a CommentedKey assignment contributes exactly the two entries
K ↦ V then K_comment ↦ trim(label) for every Value V; a CommentedValue
assignment does so only for a string Value, with the value itself also
trimmed; the two concrete parses exhibit both shapes end to end. -/
theorem c7_commented_entries :
    (∀ (id label : String) (v : PValue),
      commentedAssignment1Action (commentedIdentifierAction id label) v =
        [(id, v), (id ++ "_comment", .s (trimSpace label))]) ∧
    (∀ id str label : String,
      (commentedValueAction (.s str) label).map (commentedAssignment2Action id) =
        some [(id, .s (trimSpace str)), (id ++ "_comment", .s (trimSpace label))]) ∧
    pbxParse "\x7ba /* c */ = \x7bb = 2;\x7d;\x7d\n" 100 =
      some [("project", .obj [("a", .obj [("b", .i 2)]), ("a_comment", .s "c")])] ∧
    pbxParse "\x7ba = foo /* c */;\x7d\n" 100 =
      some [("project", .obj [("a", .s "foo"), ("a_comment", .s "c")])] :=
  ⟨commentedKey_entries_eq, commentedValue_entries_eq, by decide, by decide⟩

/-- C7 counterexample: a CommentedValue whose Value is an Object hits the
action's string assertion — the panic fails the whole parse, so the
assignment contributes no entries at all. -/
theorem c7_commented_value_counterexample :
    commentedValueAction (.obj []) "c" = none ∧
    pbxParse "\x7ba = \x7b\x7d /* c */;\x7d\n" 100 = none :=
  ⟨rfl, by decide⟩
